import Mathlib

/-!
Verification development for the package-acquisition pipeline of the `edi`
repository (`edi/lib/debhelpers.py`, class `PackageDownloader`).

The Python code is shallowly embedded: every method becomes a Lean function,
network / hashing / decompression / external-parser effects are supplied by an
explicit `Env` of pure functions, and the observable side effects (URLs
fetched, files written into the destination directory) are threaded through a
`DLState` record.  `print_error_and_exit` calls are modelled as the `fatal`
constructor of an `Outcome`, uncaught Python exceptions as the `exn`
constructor.
-/

namespace Edi

/-- Raw bytes (network payloads, file contents), modelled as a list of byte
values. -/
abbrev ByteSeq := List Nat

/-- One deb822 paragraph or one checksum-section row: an ordered association
list from field name to field value, with dict-like access. -/
abbrev Paragraph := List (String × String)

/-- Dictionary lookup mirroring Python `dict.get(key, None)`: the first
binding for the key wins, a missing key yields `none`. -/
def pget (p : Paragraph) (k : String) : Option String :=
  (p.find? (fun kv => kv.1 == k)).map (fun kv => kv.2)

/-- Splitting a character list at every occurrence of a separator character
(the single-character uses of `str.split` in the code). -/
def splitOnChar (sep : Char) : List Char → List (List Char)
  | [] => [[]]
  | c :: rest =>
      let r := splitOnChar sep rest
      if c = sep then [] :: r
      else
        match r with
        | [] => [[c]]
        | h :: t => (c :: h) :: t

/-- Whether the first string is a prefix of the second. -/
def strIsPrefixOf (p s : String) : Bool := p.data.isPrefixOf s.data

/-- Whether the string ends with the given suffix. -/
def strEndsWith (s suffix : String) : Bool :=
  suffix.data.reverse.isPrefixOf s.data.reverse

/-- Python truthiness for an optional string: `None` and the empty string are
falsy. -/
def truthyStr : Option String → Option String
  | some s => if s = "" then none else some s
  | none => none

/-- Python truthiness for an optional checksum section: `None` and the empty
list are falsy. -/
def truthySecs : Option (List Paragraph) → Option (List Paragraph)
  | some l => if l = [] then none else some l
  | none => none

/-- Result of parsing one sources.list-style line. -/
structure SourceEntry where
  invalid : Bool
  typ : String
  uri : String
  dist : String
  comps : List String
deriving Repr, DecidableEq

/-- Modelled from the external library `aptsources.sourceslist.SourceEntry`
(third-party code, not part of this repository): the line is split on
whitespace; fewer than three pieces, or a type other than `deb`/`deb-src`,
merely marks the entry invalid — no exception is raised.  Otherwise type, URI,
distribution and the remaining components are recorded.  Bracketed option
fields are not modelled (none of the claims involve them). -/
def sourceEntryParse (line : String) : SourceEntry :=
  let pieces := ((splitOnChar ' ' line.data).map String.mk).filter (fun s => s ≠ "")
  if pieces.length < 3 then ⟨true, "", "", "", []⟩
  else
    let t := pieces.headD ""
    if t ≠ "deb" ∧ t ≠ "deb-src" then ⟨true, t, "", "", []⟩
    else ⟨false, t, pieces.getD 1 "", pieces.getD 2 "", pieces.drop 3⟩

/-- Python `str.rstrip('/')`. -/
def rstripSlash (s : String) : String :=
  String.mk ((s.data.reverse.dropWhile (fun c => c = '/')).reverse)

/-- The state a constructed `PackageDownloader` carries
(`PackageDownloader.__init__`, debhelpers.py lines 38-49). -/
structure Downloader where
  repository : String
  repository_key : Option String
  architectures : List String
  invalid : Bool
  uri : String
  dist : String
  comps : List String
  compressions : List String
  checksum_algorithms : List String
deriving Repr, DecidableEq

/-- The fatal error kinds surfaced through `print_error_and_exit`, named after
the specification's error taxonomy (section 7). -/
inductive EdiError where
  | missingArgument (what : String)
  | repositoryUnreachable (url : String)
  | signatureVerificationFailed
  | noChecksumSection
  | checksumMismatch
  | packageNameParseError (name : String)
  | packageNotFound (name : String)
deriving Repr, DecidableEq

/-- Uncaught Python exceptions the code can raise. -/
inductive PyError where
  | nameError
  | attributeError
  | keyError (k : String)
deriving Repr, DecidableEq

/-- Result of a modelled call: normal value, `print_error_and_exit` abort, or
an uncaught Python exception. -/
inductive Outcome (α : Type) where
  | ok (a : α)
  | fatal (e : EdiError)
  | exn (e : PyError)
deriving Repr, DecidableEq

/-- `PackageDownloader.__init__` (lines 38-49): reject a falsy `repository`
or a falsy `architectures` list, parse the repository line with
`SourceEntry`, strip trailing slashes from the URI, and fix the compression
and checksum-algorithm preference lists.  Note that neither the parsed
entry's `invalid` flag nor its component list is inspected. -/
def packageDownloader_init (repository : Option String) (repository_key : Option String)
    (architectures : Option (List String)) : Outcome Downloader :=
  if truthyStr repository = none then .fatal (.missingArgument "repository")
  else if architectures = none ∨ architectures = some [] then
    .fatal (.missingArgument "architectures")
  else
    let src := sourceEntryParse (repository.getD "")
    .ok ⟨repository.getD "", repository_key, architectures.getD [], src.invalid,
         rstripSlash src.uri, src.dist, src.comps,
         ["gz", "bz2", "xz"], ["SHA512", "SHA256"]⟩

/-- Release-file main paragraph as produced by `debian.deb822.Release`: the
two checksum sections the code ever reads. -/
structure ReleaseDoc where
  sha512 : Option (List Paragraph)
  sha256 : Option (List Paragraph)
deriving Repr, DecidableEq

/-- Observable side effects of one `download()` call: URLs fetched over the
network, in order, and files written into the destination directory
(path and content).  Files inside the per-call temporary directory are not
tracked: the `TemporaryDirectory` context removes them on every exit path. -/
structure DLState where
  fetched : List String
  written : List (String × ByteSeq)
deriving Repr, DecidableEq

/-- The environment: pure models of the network and of the external
primitives the code calls (hashlib, gpg, the deb822 parsers, decompress,
key fetching).  `fetch url = none` models a non-200 HTTP response. -/
structure Env where
  fetch : String → Option ByteSeq
  hashHex : String → ByteSeq → String
  gpgStatus : ByteSeq → Option ByteSeq → ByteSeq → String
  fetchKey : String → ByteSeq
  parseRelease : ByteSeq → ReleaseDoc
  decompress : ByteSeq → ByteSeq
  parsePackages : ByteSeq → List Paragraph

/-- `PackageDownloader._fetch_archive_element` (lines 57-67): issue the GET,
record it, and on a non-200 answer either abort (`check`) or yield `none`. -/
def fetch_archive_element (env : Env) (st : DLState) (url : String) (check : Bool) :
    Outcome (Option ByteSeq) × DLState :=
  let st1 : DLState := ⟨st.fetched ++ [url], st.written⟩
  match env.fetch url with
  | some content => (.ok (some content), st1)
  | none =>
      if check then (.fatal (.repositoryUnreachable url), st1)
      else (.ok none, st1)

/-- `PackageDownloader._try_fetch_archive_element` (lines 54-55). -/
def try_fetch_archive_element (env : Env) (st : DLState) (url : String) :
    Option ByteSeq × DLState :=
  match fetch_archive_element env st url false with
  | (.ok d, st1) => (d, st1)
  | (_, st1) => (none, st1)

/-- A mandatory fetch (`check=True`): simplifies the `Option` away. -/
def fetch_checked (env : Env) (st : DLState) (url : String) : Outcome ByteSeq × DLState :=
  match fetch_archive_element env st url true with
  | (.ok (some c), st1) => (.ok c, st1)
  | (.ok none, st1) => (.fatal (.repositoryUnreachable url), st1)
  | (.fatal e, st1) => (.fatal e, st1)
  | (.exn e, st1) => (.exn e, st1)

/-- One `re.MULTILINE` search for a line beginning with the given marker
(the shape of `^\[GNUPG:\] GOODSIG` used at lines 106-107). -/
def hasStatusLine (output marker : String) : Bool :=
  (splitOnChar '\n' output.data).any (fun line => marker.data.isPrefixOf line)

/-- `PackageDownloader._verify_signature` (lines 90-115): run gpg with an
isolated keyring, then require both a `GOODSIG` and a `VALIDSIG` status
line. -/
def verify_signature (env : Env) (keyData signedData : ByteSeq)
    (detachedSig : Option ByteSeq) : Bool :=
  let output := env.gpgStatus signedData detachedSig keyData
  hasStatusLine output "[GNUPG:] GOODSIG" && hasStatusLine output "[GNUPG:] VALIDSIG"

/-- The candidate index names, one per component x architecture x compression
triple, nested exactly like the comprehension at lines 81-84. -/
def packagesFilter (dl : Downloader) : List String :=
  dl.comps.flatMap (fun component =>
    dl.architectures.flatMap (fun architecture =>
      dl.compressions.map (fun compression =>
        component ++ "/binary-" ++ architecture ++ "/Packages." ++ compression)))

/-- The list-comprehension filter at line 86: keep the section rows whose
`name` is one of the candidate index names (a missing name never matches). -/
def filterByName (flt : List String) (sec : List Paragraph) : List Paragraph :=
  sec.filter (fun e =>
    match pget e "name" with
    | some n => flt.contains n
    | none => false)

/-- `PackageDownloader._parse_release_file` (lines 69-88): take the SHA512
section if truthy, else the SHA256 section if truthy, else abort; then keep
the rows naming a candidate index file, in section order. -/
def parse_release_file (env : Env) (dl : Downloader) (releaseData : ByteSeq) :
    Outcome (List Paragraph) :=
  let doc := env.parseRelease releaseData
  match truthySecs doc.sha512 with
  | some sec => .ok (filterByName (packagesFilter dl) sec)
  | none =>
      match truthySecs doc.sha256 with
      | some sec => .ok (filterByName (packagesFilter dl) sec)
      | none => .fatal .noChecksumSection

/-- Python `str.lower()` for the ASCII algorithm names the code uses. -/
def strLower (s : String) : String := String.mk (s.data.map Char.toLower)

/-- Field probing at lines 119-121: `item.get(alg)` and, if that is falsy,
`item.get(alg.lower())`. -/
def checksumField (item : Paragraph) (algorithm : String) : Option String :=
  match truthyStr (pget item algorithm) with
  | some c => some c
  | none => truthyStr (pget item (strLower algorithm))

/-- The loop body of `_verify_checksum` (lines 118-133) over the remaining
algorithm preference list.  When no algorithm yields a checksum the code
reaches line 133, whose format argument references the undefined name
`package_item`, so Python raises `NameError` before any message is printed. -/
def verify_checksum_over (env : Env) (data : ByteSeq) (item : Paragraph) :
    List String → Outcome Unit
  | [] => .exn .nameError
  | algorithm :: rest =>
      match checksumField item algorithm with
      | some checksum =>
          if env.hashHex (strLower algorithm) data = checksum then .ok ()
          else .fatal .checksumMismatch
      | none => verify_checksum_over env data item rest

/-- `PackageDownloader._verify_checksum` (lines 117-133). -/
def verify_checksum (env : Env) (dl : Downloader) (data : ByteSeq) (item : Paragraph) :
    Outcome Unit :=
  verify_checksum_over env data item dl.checksum_algorithms

/-- The character class `[a-z2]` of the regex at line 138. -/
def isLowerOr2 (c : Char) : Bool := (decide ('a' ≤ c) && decide (c ≤ 'z')) || c = '2'

/-- Whether a character tail matches the regex fragment `\.*([a-z2]{1,3})$`:
all leading literal dots are consumed, then one to three `[a-z2]` characters
must reach the end (a dot is not in `[a-z2]`, so no backtracking helps). -/
def pkgTailMatches (l : List Char) : Bool :=
  let ext := l.dropWhile (fun c => c = '.')
  !ext.isEmpty && decide (ext.length ≤ 3) && ext.all isLowerOr2

/-- The literal `Packages` as characters. -/
def packagesLit : List Char := ['P', 'a', 'c', 'k', 'a', 'g', 'e', 's']

/-- Group 1 of `re.match('^(.*)Packages\.*([a-z2]{1,3})$', s)` (line 138):
the greedy leading `(.*)` selects the rightmost occurrence of `Packages`
whose tail matches, so the recursion prefers a match further right and only
then tests the current position. -/
def matchPackages1 : List Char → Option (List Char)
  | [] => none
  | c :: rest =>
      match matchPackages1 rest with
      | some g => some (c :: g)
      | none =>
          if packagesLit.isPrefixOf (c :: rest) && pkgTailMatches ((c :: rest).drop 8) then
            some []
          else none

/-- `group(1).replace('/', '_')` at line 142. -/
def underscoreSlashes (l : List Char) : List Char :=
  l.map (fun c => if c = '/' then '_' else c)

/-- The component/architecture deduplication key computed at lines 138-142:
`none` when the regex does not match at all. -/
def packagesPfx (name : String) : Option String :=
  (matchPackages1 name.data).map (fun g => String.mk (underscoreSlashes g))

/-- Greedy `.*deb` on a character list: the longest prefix ending in the
literal `deb`, or `none` when no prefix ends in `deb`. -/
def debGroup : List Char → Option (List Char)
  | [] => none
  | c :: rest =>
      match debGroup rest with
      | some g => some (c :: g)
      | none =>
          if ['d', 'e', 'b'].isPrefixOf (c :: rest) then some ['d', 'e', 'b'] else none

/-- Group 1 of `re.match('.*/(.*deb)', s)` (line 165): the greedy leading
`.*` selects the rightmost slash whose remainder contains `deb`, and the
group is the remainder's longest prefix ending in `deb`. -/
def reMatchDeb1 : List Char → Option (List Char)
  | [] => none
  | c :: rest =>
      match reMatchDeb1 rest with
      | some g => some g
      | none => if c = '/' then debGroup rest else none

/-- String form of the line-165 regex extraction. -/
def reMatchDeb (s : String) : Option String := (reMatchDeb1 s.data).map String.mk

/-- Python `os.path.join` for the two-argument shapes the code uses. -/
def os_path_join (a b : String) : String :=
  if strIsPrefixOf "/" b then b
  else if a = "" then b
  else if strEndsWith a "/" then a ++ b
  else a ++ "/" ++ b

/-- Index-file URL built at line 147. -/
def candidate_url (dl : Downloader) (name : String) : String :=
  dl.uri ++ "/dists/" ++ dl.dist ++ "/" ++ name

/-- The document-order scan at lines 157-159: the first paragraph whose
`Package` field equals the requested name (a paragraph without a `Package`
field would raise `KeyError`). -/
def scanPackages (package_name : String) : List Paragraph → Outcome (Option Paragraph)
  | [] => .ok none
  | sec :: rest =>
      match pget sec "Package" with
      | none => .exn (.keyError "Package")
      | some v =>
          if v = package_name then .ok (some sec) else scanPackages package_name rest

/-- `PackageDownloader._find_package_in_package_files` (lines 135-161):
walk the candidate rows in order; parse each name into its component/arch
deduplication key (abort when the regex fails); skip a candidate whose key
was already downloaded; otherwise try the fetch (a miss is non-fatal),
checksum-verify a fetched index (a mismatch aborts), record the key,
decompress, and scan for the package, returning the first hit immediately. -/
def find_package_in_package_files (env : Env) (dl : Downloader) (package_name : String) :
    List Paragraph → List String → DLState → Outcome (Option Paragraph) × DLState
  | [], _, st => (.ok none, st)
  | package_file :: rest, downloaded, st =>
      match pget package_file "name" with
      | none => (.exn (.keyError "name"), st)
      | some name =>
          match packagesPfx name with
          | none => (.fatal (.packageNameParseError name), st)
          | some pfx =>
              if downloaded.contains pfx then
                find_package_in_package_files env dl package_name rest downloaded st
              else
                match try_fetch_archive_element env st (candidate_url dl name) with
                | (none, st1) =>
                    find_package_in_package_files env dl package_name rest downloaded st1
                | (some data, st1) =>
                    match verify_checksum env dl data package_file with
                    | .fatal e => (.fatal e, st1)
                    | .exn e => (.exn e, st1)
                    | .ok _ =>
                        match scanPackages package_name
                            (env.parsePackages (env.decompress data)) with
                        | .exn e => (.exn e, st1)
                        | .fatal e => (.fatal e, st1)
                        | .ok (some sec) => (.ok (some sec), st1)
                        | .ok none =>
                            find_package_in_package_files env dl package_name rest
                              (downloaded ++ [pfx]) st1

/-- `PackageDownloader._download_package` (lines 163-172): extract the file
name from the control entry's `Filename` via the line-165 regex (a failed
match would make `.group(1)` raise `AttributeError`), fetch the payload
(mandatory), verify its checksum, and only then write the file into the
destination directory and return its path. -/
def download_package (env : Env) (dl : Downloader) (package : Paragraph) (dest : String)
    (st : DLState) : Outcome String × DLState :=
  match pget package "Filename" with
  | none => (.exn (.keyError "Filename"), st)
  | some full_name =>
      match reMatchDeb full_name with
      | none => (.exn .attributeError, st)
      | some package_name =>
          match fetch_checked env st (dl.uri ++ "/" ++ full_name) with
          | (.fatal e, st1) => (.fatal e, st1)
          | (.exn e, st1) => (.exn e, st1)
          | (.ok package_data, st1) =>
              match verify_checksum env dl package_data package with
              | .fatal e => (.fatal e, st1)
              | .exn e => (.exn e, st1)
              | .ok _ =>
                  let package_file := os_path_join dest package_name
                  (.ok package_file,
                   ⟨st1.fetched, st1.written ++ [(package_file, package_data)]⟩)

/-- The empty effect state at the start of a `download()` call. -/
def init_state : DLState := ⟨[], []⟩

/-- The three metadata URLs of lines 180, 191 and 195. -/
def inrelease_url (dl : Downloader) : String :=
  dl.uri ++ "/dists/" ++ dl.dist ++ "/InRelease"

/-- Release URL (line 191). -/
def release_url (dl : Downloader) : String :=
  dl.uri ++ "/dists/" ++ dl.dist ++ "/Release"

/-- Release.gpg URL (line 195). -/
def release_gpg_url (dl : Downloader) : String :=
  dl.uri ++ "/dists/" ++ dl.dist ++ "/Release.gpg"

/-- All metadata URLs a `download()` call may touch before trust
verification. -/
def metadata_urls (dl : Downloader) : List String :=
  [inrelease_url dl, release_url dl, release_gpg_url dl]

/-- Lines 178-197 of `download()`: try `InRelease` (optional); on a miss
fetch `Release` (mandatory) and, only when a repository key is configured,
`Release.gpg` (mandatory).  Yields the signed document plus the optional
detached signature. -/
def acquire_release (env : Env) (dl : Downloader) (st : DLState) :
    Outcome (ByteSeq × Option ByteSeq) × DLState :=
  match try_fetch_archive_element env st (inrelease_url dl) with
  | (some inrelease_data, st1) => (.ok (inrelease_data, none), st1)
  | (none, st1) =>
      match fetch_checked env st1 (release_url dl) with
      | (.fatal e, st2) => (.fatal e, st2)
      | (.exn e, st2) => (.exn e, st2)
      | (.ok release_data, st2) =>
          match truthyStr dl.repository_key with
          | some _ =>
              match fetch_checked env st2 (release_gpg_url dl) with
              | (.fatal e, st3) => (.fatal e, st3)
              | (.exn e, st3) => (.exn e, st3)
              | (.ok signature_data, st3) => (.ok (release_data, some signature_data), st3)
          | none => (.ok (release_data, none), st2)

/-- Lines 208-214 of `download()`: parse the (now trusted) release document,
locate the package in the candidate index files, and either abort with the
package-not-found error or download the payload. -/
def locate_and_download (env : Env) (dl : Downloader) (package_name dest : String)
    (releaseData : ByteSeq) (st : DLState) : Outcome String × DLState :=
  match parse_release_file env dl releaseData with
  | .fatal e => (.fatal e, st)
  | .exn e => (.exn e, st)
  | .ok package_files =>
      match find_package_in_package_files env dl package_name package_files [] st with
      | (.fatal e, st1) => (.fatal e, st1)
      | (.exn e, st1) => (.exn e, st1)
      | (.ok none, st1) => (.fatal (.packageNotFound package_name), st1)
      | (.ok (some requested_package), st1) =>
          download_package env dl requested_package dest st1

/-- `PackageDownloader.download` (lines 174-214): reject a falsy package
name, acquire the release metadata, verify its signature when a repository
key is configured (aborting when either status marker is missing), then
locate and download the package. -/
def download (env : Env) (dl : Downloader) (package_name : String) (dest : String) :
    Outcome String × DLState :=
  if package_name = "" then (.fatal (.missingArgument "package_name"), init_state)
  else
    match acquire_release env dl init_state with
    | (.fatal e, st) => (.fatal e, st)
    | (.exn e, st) => (.exn e, st)
    | (.ok (releaseData, sig), st) =>
        match truthyStr dl.repository_key with
        | some k =>
            if verify_signature env (env.fetchKey k) releaseData sig then
              locate_and_download env dl package_name dest releaseData st
            else (.fatal .signatureVerificationFailed, st)
        | none => locate_and_download env dl package_name dest releaseData st

/-- Modelled from the spec: `basename(Filename)`, the last path component of
a file name (the characters after the last slash).  Used only to compare the
code's regex extraction against the spec's words. -/
def spec_basename (s : String) : String :=
  String.mk ((s.data.reverse.takeWhile (fun c => c ≠ '/')).reverse)

/-! ### General lemmas about the embedded operations -/

/-- Lowercasing the two algorithm names the code configures. -/
lemma strLower_SHA512 : strLower "SHA512" = "sha512" := by decide

/-- Lowercasing the second configured algorithm name. -/
lemma strLower_SHA256 : strLower "SHA256" = "sha256" := by decide

/-- Checksum verification can only succeed, abort with a checksum mismatch,
or raise the line-133 `NameError`. -/
lemma verify_checksum_over_cases (env : Env) (data : ByteSeq) (item : Paragraph) :
    ∀ algs : List String,
      verify_checksum_over env data item algs = .ok () ∨
      verify_checksum_over env data item algs = .fatal .checksumMismatch ∨
      verify_checksum_over env data item algs = .exn .nameError := by
  intro algs
  induction algs with
  | nil => right; right; rfl
  | cons a rest ih =>
      by_cases h : checksumField item a = none
      · simpa [verify_checksum_over, h] using ih
      · obtain ⟨c, hc⟩ := Option.ne_none_iff_exists.mp h
        by_cases he : env.hashHex (strLower a) data = c
        · left; simp [verify_checksum_over, ← hc, he]
        · right; left; simp [verify_checksum_over, ← hc, he]

/-- The document scan never calls `print_error_and_exit`. -/
lemma scanPackages_ne_fatal (nm : String) (e : EdiError) :
    ∀ secs : List Paragraph, scanPackages nm secs ≠ .fatal e := by
  intro secs
  induction secs with
  | nil => simp [scanPackages]
  | cons sec rest ih =>
      cases h : pget sec "Package" with
      | none => simp [scanPackages, h]
      | some v =>
          by_cases hv : v = nm
          · simp [scanPackages, h, hv]
          · simpa [scanPackages, h, hv] using ih

/-- An optional fetch is the raw network answer plus the recorded URL. -/
lemma try_fetch_eq (env : Env) (st : DLState) (url : String) :
    try_fetch_archive_element env st url =
      (env.fetch url, ⟨st.fetched ++ [url], st.written⟩) := by
  cases h : env.fetch url <;>
    simp [try_fetch_archive_element, fetch_archive_element, h]

/-- A mandatory fetch that hits returns the payload and records the URL. -/
lemma fetch_checked_some (env : Env) (st : DLState) (url : String) (d : ByteSeq)
    (h : env.fetch url = some d) :
    fetch_checked env st url = (.ok d, ⟨st.fetched ++ [url], st.written⟩) := by
  simp [fetch_checked, fetch_archive_element, h]

/-- A mandatory fetch that misses aborts and records the URL. -/
lemma fetch_checked_none (env : Env) (st : DLState) (url : String)
    (h : env.fetch url = none) :
    fetch_checked env st url =
      (.fatal (.repositoryUnreachable url), ⟨st.fetched ++ [url], st.written⟩) := by
  simp [fetch_checked, fetch_archive_element, h]

/-- Unfolding the find loop: no candidates left. -/
lemma find_nil (env : Env) (dl : Downloader) (nm : String) (downloaded : List String)
    (st : DLState) :
    find_package_in_package_files env dl nm [] downloaded st = (.ok none, st) := rfl

/-- Unfolding the find loop: a candidate row without a `name` field raises
`KeyError`. -/
lemma find_cons_keyerr (env : Env) (dl : Downloader) (nm : String) (f : Paragraph)
    (rest : List Paragraph) (downloaded : List String) (st : DLState)
    (hname : pget f "name" = none) :
    find_package_in_package_files env dl nm (f :: rest) downloaded st =
      (.exn (.keyError "name"), st) := by
  rw [find_package_in_package_files]; simp only [hname]

/-- Unfolding the find loop: a candidate name the line-138 regex rejects
aborts. -/
lemma find_cons_parseerr (env : Env) (dl : Downloader) (nm : String) (f : Paragraph)
    (rest : List Paragraph) (downloaded : List String) (st : DLState) (name : String)
    (hname : pget f "name" = some name) (hpfx : packagesPfx name = none) :
    find_package_in_package_files env dl nm (f :: rest) downloaded st =
      (.fatal (.packageNameParseError name), st) := by
  rw [find_package_in_package_files]; simp only [hname, hpfx]

/-- Unfolding the find loop: a candidate whose component/arch key was already
downloaded is skipped without any fetch. -/
lemma find_cons_skip (env : Env) (dl : Downloader) (nm : String) (f : Paragraph)
    (rest : List Paragraph) (downloaded : List String) (st : DLState)
    (name pfx : String)
    (hname : pget f "name" = some name) (hpfx : packagesPfx name = some pfx)
    (hmem : downloaded.contains pfx = true) :
    find_package_in_package_files env dl nm (f :: rest) downloaded st =
      find_package_in_package_files env dl nm rest downloaded st := by
  rw [find_package_in_package_files]; simp only [hname, hpfx, hmem, if_true]

/-- Unfolding the find loop: a missing index resource is non-fatal, the next
candidate is tried with the attempt recorded. -/
lemma find_cons_miss (env : Env) (dl : Downloader) (nm : String) (f : Paragraph)
    (rest : List Paragraph) (downloaded : List String) (st : DLState)
    (name pfx : String)
    (hname : pget f "name" = some name) (hpfx : packagesPfx name = some pfx)
    (hmem : downloaded.contains pfx = false)
    (hfetch : env.fetch (candidate_url dl name) = none) :
    find_package_in_package_files env dl nm (f :: rest) downloaded st =
      find_package_in_package_files env dl nm rest downloaded
        ⟨st.fetched ++ [candidate_url dl name], st.written⟩ := by
  rw [find_package_in_package_files]
  simp only [hname, hpfx, hmem, Bool.false_eq_true, if_false, try_fetch_eq, hfetch]

/-- Unfolding the find loop: a fetched index whose checksum verification
aborts makes the whole loop abort at once. -/
lemma find_cons_badsum (env : Env) (dl : Downloader) (nm : String) (f : Paragraph)
    (rest : List Paragraph) (downloaded : List String) (st : DLState)
    (name pfx : String) (data : ByteSeq) (e : EdiError)
    (hname : pget f "name" = some name) (hpfx : packagesPfx name = some pfx)
    (hmem : downloaded.contains pfx = false)
    (hfetch : env.fetch (candidate_url dl name) = some data)
    (hver : verify_checksum env dl data f = .fatal e) :
    find_package_in_package_files env dl nm (f :: rest) downloaded st =
      (.fatal e, ⟨st.fetched ++ [candidate_url dl name], st.written⟩) := by
  rw [find_package_in_package_files]
  simp only [hname, hpfx, hmem, Bool.false_eq_true, if_false, try_fetch_eq, hfetch, hver]

/-- Unfolding the find loop: an uncaught exception inside checksum
verification propagates. -/
lemma find_cons_exnsum (env : Env) (dl : Downloader) (nm : String) (f : Paragraph)
    (rest : List Paragraph) (downloaded : List String) (st : DLState)
    (name pfx : String) (data : ByteSeq) (e : PyError)
    (hname : pget f "name" = some name) (hpfx : packagesPfx name = some pfx)
    (hmem : downloaded.contains pfx = false)
    (hfetch : env.fetch (candidate_url dl name) = some data)
    (hver : verify_checksum env dl data f = .exn e) :
    find_package_in_package_files env dl nm (f :: rest) downloaded st =
      (.exn e, ⟨st.fetched ++ [candidate_url dl name], st.written⟩) := by
  rw [find_package_in_package_files]
  simp only [hname, hpfx, hmem, Bool.false_eq_true, if_false, try_fetch_eq, hfetch, hver]

/-- Unfolding the find loop: the scan result of a verified index decides the
step — found, scan exception, or continue with the key recorded. -/
lemma find_cons_found (env : Env) (dl : Downloader) (nm : String) (f : Paragraph)
    (rest : List Paragraph) (downloaded : List String) (st : DLState)
    (name pfx : String) (data : ByteSeq) (sec : Paragraph)
    (hname : pget f "name" = some name) (hpfx : packagesPfx name = some pfx)
    (hmem : downloaded.contains pfx = false)
    (hfetch : env.fetch (candidate_url dl name) = some data)
    (hver : verify_checksum env dl data f = .ok ())
    (hscan : scanPackages nm (env.parsePackages (env.decompress data)) = .ok (some sec)) :
    find_package_in_package_files env dl nm (f :: rest) downloaded st =
      (.ok (some sec), ⟨st.fetched ++ [candidate_url dl name], st.written⟩) := by
  rw [find_package_in_package_files]
  simp only [hname, hpfx, hmem, Bool.false_eq_true, if_false, try_fetch_eq, hfetch, hver, hscan]

/-- Unfolding the find loop: a scan `KeyError` propagates. -/
lemma find_cons_scan_exn (env : Env) (dl : Downloader) (nm : String) (f : Paragraph)
    (rest : List Paragraph) (downloaded : List String) (st : DLState)
    (name pfx : String) (data : ByteSeq) (e : PyError)
    (hname : pget f "name" = some name) (hpfx : packagesPfx name = some pfx)
    (hmem : downloaded.contains pfx = false)
    (hfetch : env.fetch (candidate_url dl name) = some data)
    (hver : verify_checksum env dl data f = .ok ())
    (hscan : scanPackages nm (env.parsePackages (env.decompress data)) = .exn e) :
    find_package_in_package_files env dl nm (f :: rest) downloaded st =
      (.exn e, ⟨st.fetched ++ [candidate_url dl name], st.written⟩) := by
  rw [find_package_in_package_files]
  simp only [hname, hpfx, hmem, Bool.false_eq_true, if_false, try_fetch_eq, hfetch, hver, hscan]

/-- Unfolding the find loop: a scanned miss moves on with the key recorded. -/
lemma find_cons_notfound (env : Env) (dl : Downloader) (nm : String) (f : Paragraph)
    (rest : List Paragraph) (downloaded : List String) (st : DLState)
    (name pfx : String) (data : ByteSeq)
    (hname : pget f "name" = some name) (hpfx : packagesPfx name = some pfx)
    (hmem : downloaded.contains pfx = false)
    (hfetch : env.fetch (candidate_url dl name) = some data)
    (hver : verify_checksum env dl data f = .ok ())
    (hscan : scanPackages nm (env.parsePackages (env.decompress data)) = .ok none) :
    find_package_in_package_files env dl nm (f :: rest) downloaded st =
      find_package_in_package_files env dl nm rest (downloaded ++ [pfx])
        ⟨st.fetched ++ [candidate_url dl name], st.written⟩ := by
  rw [find_package_in_package_files]
  simp only [hname, hpfx, hmem, Bool.false_eq_true, if_false, try_fetch_eq, hfetch, hver, hscan]

/-- The index-locating loop never writes into the destination directory. -/
lemma find_written (env : Env) (dl : Downloader) (nm : String) :
    ∀ (files : List Paragraph) (downloaded : List String) (st : DLState),
      (find_package_in_package_files env dl nm files downloaded st).2.written =
        st.written := by
  intro files
  induction files with
  | nil => intro downloaded st; rw [find_nil]
  | cons f rest ih =>
      intro downloaded st
      cases hname : pget f "name" with
      | none => rw [find_cons_keyerr env dl nm f rest downloaded st hname]
      | some name =>
          cases hpfx : packagesPfx name with
          | none => rw [find_cons_parseerr env dl nm f rest downloaded st name hname hpfx]
          | some pfx =>
              cases hmem : downloaded.contains pfx with
              | true =>
                  rw [find_cons_skip env dl nm f rest downloaded st name pfx hname hpfx hmem]
                  exact ih downloaded st
              | false =>
                  cases hfetch : env.fetch (candidate_url dl name) with
                  | none =>
                      rw [find_cons_miss env dl nm f rest downloaded st name pfx hname hpfx
                            hmem hfetch]
                      exact ih downloaded ⟨st.fetched ++ [candidate_url dl name], st.written⟩
                  | some data =>
                      rcases verify_checksum_over_cases env data f dl.checksum_algorithms with
                        hver | hver | hver
                      · cases hscan : scanPackages nm (env.parsePackages (env.decompress data)) with
                        | ok o =>
                            cases o with
                            | some sec =>
                                rw [find_cons_found env dl nm f rest downloaded st name pfx data
                                      sec hname hpfx hmem hfetch hver hscan]
                            | none =>
                                rw [find_cons_notfound env dl nm f rest downloaded st name pfx
                                      data hname hpfx hmem hfetch hver hscan]
                                exact ih (downloaded ++ [pfx])
                                  ⟨st.fetched ++ [candidate_url dl name], st.written⟩
                        | fatal e => exact absurd hscan (scanPackages_ne_fatal nm e _)
                        | exn e =>
                            rw [find_cons_scan_exn env dl nm f rest downloaded st name pfx data
                                  e hname hpfx hmem hfetch hver hscan]
                      · rw [find_cons_badsum env dl nm f rest downloaded st name pfx data
                              .checksumMismatch hname hpfx hmem hfetch hver]
                      · rw [find_cons_exnsum env dl nm f rest downloaded st name pfx data
                              .nameError hname hpfx hmem hfetch hver]

/-- The fetch trace only ever grows along the index-locating loop. -/
lemma find_fetched_mono (env : Env) (dl : Downloader) (nm : String) :
    ∀ (files : List Paragraph) (downloaded : List String) (st : DLState),
      ∃ l, (find_package_in_package_files env dl nm files downloaded st).2.fetched =
        st.fetched ++ l := by
  intro files
  induction files with
  | nil => intro downloaded st; exact ⟨[], by rw [find_nil]; simp⟩
  | cons f rest ih =>
      intro downloaded st
      cases hname : pget f "name" with
      | none =>
          exact ⟨[], by rw [find_cons_keyerr env dl nm f rest downloaded st hname]; simp⟩
      | some name =>
          cases hpfx : packagesPfx name with
          | none =>
              exact ⟨[], by
                rw [find_cons_parseerr env dl nm f rest downloaded st name hname hpfx]; simp⟩
          | some pfx =>
              cases hmem : downloaded.contains pfx with
              | true =>
                  rw [find_cons_skip env dl nm f rest downloaded st name pfx hname hpfx hmem]
                  exact ih downloaded st
              | false =>
                  cases hfetch : env.fetch (candidate_url dl name) with
                  | none =>
                      rw [find_cons_miss env dl nm f rest downloaded st name pfx hname hpfx
                            hmem hfetch]
                      obtain ⟨l, hl⟩ :=
                        ih downloaded ⟨st.fetched ++ [candidate_url dl name], st.written⟩
                      exact ⟨candidate_url dl name :: l, by simpa using hl⟩
                  | some data =>
                      rcases verify_checksum_over_cases env data f dl.checksum_algorithms with
                        hver | hver | hver
                      · cases hscan : scanPackages nm (env.parsePackages (env.decompress data)) with
                        | ok o =>
                            cases o with
                            | some sec =>
                                refine ⟨[candidate_url dl name], ?_⟩
                                rw [find_cons_found env dl nm f rest downloaded st name pfx data
                                      sec hname hpfx hmem hfetch hver hscan]
                            | none =>
                                rw [find_cons_notfound env dl nm f rest downloaded st name pfx
                                      data hname hpfx hmem hfetch hver hscan]
                                obtain ⟨l, hl⟩ := ih (downloaded ++ [pfx])
                                  ⟨st.fetched ++ [candidate_url dl name], st.written⟩
                                exact ⟨candidate_url dl name :: l, by simpa using hl⟩
                        | fatal e => exact absurd hscan (scanPackages_ne_fatal nm e _)
                        | exn e =>
                            refine ⟨[candidate_url dl name], ?_⟩
                            rw [find_cons_scan_exn env dl nm f rest downloaded st name pfx data
                                  e hname hpfx hmem hfetch hver hscan]
                      · refine ⟨[candidate_url dl name], ?_⟩
                        rw [find_cons_badsum env dl nm f rest downloaded st name pfx data
                              .checksumMismatch hname hpfx hmem hfetch hver]
                      · refine ⟨[candidate_url dl name], ?_⟩
                        rw [find_cons_exnsum env dl nm f rest downloaded st name pfx data
                              .nameError hname hpfx hmem hfetch hver]

/-- The only fatal errors the index-locating loop can raise are a checksum
mismatch or a candidate-name parse error; in particular it never raises the
signature-verification failure. -/
lemma find_fatal_classify (env : Env) (dl : Downloader) (nm : String) :
    ∀ (files : List Paragraph) (downloaded : List String) (st : DLState) (e : EdiError)
      (st1 : DLState),
      find_package_in_package_files env dl nm files downloaded st = (.fatal e, st1) →
      e = .checksumMismatch ∨ ∃ n, e = .packageNameParseError n := by
  intro files
  induction files with
  | nil => intro downloaded st e st1 h; rw [find_nil] at h; exact absurd h (by simp)
  | cons f rest ih =>
      intro downloaded st e st1 h
      cases hname : pget f "name" with
      | none =>
          rw [find_cons_keyerr env dl nm f rest downloaded st hname] at h
          exact absurd h (by simp)
      | some name =>
          cases hpfx : packagesPfx name with
          | none =>
              rw [find_cons_parseerr env dl nm f rest downloaded st name hname hpfx] at h
              injection h with h1 h2
              injection h1 with h1
              exact Or.inr ⟨name, h1.symm⟩
          | some pfx =>
              cases hmem : downloaded.contains pfx with
              | true =>
                  rw [find_cons_skip env dl nm f rest downloaded st name pfx hname hpfx hmem] at h
                  exact ih downloaded st e st1 h
              | false =>
                  cases hfetch : env.fetch (candidate_url dl name) with
                  | none =>
                      rw [find_cons_miss env dl nm f rest downloaded st name pfx hname hpfx
                            hmem hfetch] at h
                      exact ih downloaded _ e st1 h
                  | some data =>
                      rcases verify_checksum_over_cases env data f dl.checksum_algorithms with
                        hver | hver | hver
                      · cases hscan : scanPackages nm (env.parsePackages (env.decompress data)) with
                        | ok o =>
                            cases o with
                            | some sec =>
                                rw [find_cons_found env dl nm f rest downloaded st name pfx data
                                      sec hname hpfx hmem hfetch hver hscan] at h
                                exact absurd h (by simp)
                            | none =>
                                rw [find_cons_notfound env dl nm f rest downloaded st name pfx
                                      data hname hpfx hmem hfetch hver hscan] at h
                                exact ih (downloaded ++ [pfx]) _ e st1 h
                        | fatal e2 => exact absurd hscan (scanPackages_ne_fatal nm e2 _)
                        | exn e2 =>
                            rw [find_cons_scan_exn env dl nm f rest downloaded st name pfx data
                                  e2 hname hpfx hmem hfetch hver hscan] at h
                            exact absurd h (by simp)
                      · rw [find_cons_badsum env dl nm f rest downloaded st name pfx data
                              .checksumMismatch hname hpfx hmem hfetch hver] at h
                        left
                        injection h with h1 h2
                        injection h1 with h1
                        exact h1.symm
                      · rw [find_cons_exnsum env dl nm f rest downloaded st name pfx data
                              .nameError hname hpfx hmem hfetch hver] at h
                        exact absurd h (by simp)

/-- A present `InRelease` settles the metadata acquisition by itself. -/
lemma acquire_inrel_some (env : Env) (dl : Downloader) (st : DLState) (d : ByteSeq)
    (h : env.fetch (inrelease_url dl) = some d) :
    acquire_release env dl st = (.ok (d, none), ⟨st.fetched ++ [inrelease_url dl], st.written⟩) := by
  rw [acquire_release]
  simp only [try_fetch_eq, h]

/-- With `InRelease` absent and `Release` unreachable, acquisition aborts. -/
lemma acquire_rel_none (env : Env) (dl : Downloader) (st : DLState)
    (h1 : env.fetch (inrelease_url dl) = none)
    (h2 : env.fetch (release_url dl) = none) :
    acquire_release env dl st =
      (.fatal (.repositoryUnreachable (release_url dl)),
       ⟨st.fetched ++ [inrelease_url dl, release_url dl], st.written⟩) := by
  rw [acquire_release]
  simp only [try_fetch_eq, h1]
  rw [fetch_checked_none env ⟨st.fetched ++ [inrelease_url dl], st.written⟩ (release_url dl) h2]
  simp

/-- With `InRelease` absent, `Release` present and no key configured, the
metadata is the `Release` document without a detached signature. -/
lemma acquire_rel_nokey (env : Env) (dl : Downloader) (st : DLState) (rd : ByteSeq)
    (h1 : env.fetch (inrelease_url dl) = none)
    (h2 : env.fetch (release_url dl) = some rd)
    (hk : truthyStr dl.repository_key = none) :
    acquire_release env dl st =
      (.ok (rd, none), ⟨st.fetched ++ [inrelease_url dl, release_url dl], st.written⟩) := by
  rw [acquire_release]
  simp only [try_fetch_eq, h1]
  rw [fetch_checked_some env ⟨st.fetched ++ [inrelease_url dl], st.written⟩ (release_url dl) rd h2]
  simp [hk]

/-- With a key configured, a missing `Release.gpg` is fatal. -/
lemma acquire_gpg_none (env : Env) (dl : Downloader) (st : DLState) (rd : ByteSeq) (k : String)
    (h1 : env.fetch (inrelease_url dl) = none)
    (h2 : env.fetch (release_url dl) = some rd)
    (hk : truthyStr dl.repository_key = some k)
    (h3 : env.fetch (release_gpg_url dl) = none) :
    acquire_release env dl st =
      (.fatal (.repositoryUnreachable (release_gpg_url dl)),
       ⟨st.fetched ++ [inrelease_url dl, release_url dl, release_gpg_url dl], st.written⟩) := by
  rw [acquire_release]
  simp only [try_fetch_eq, h1]
  rw [fetch_checked_some env ⟨st.fetched ++ [inrelease_url dl], st.written⟩ (release_url dl) rd h2]
  simp only [hk]
  rw [fetch_checked_none env ⟨st.fetched ++ [inrelease_url dl] ++ [release_url dl], st.written⟩
        (release_gpg_url dl) h3]
  simp

/-- With a key configured and all mandatory fetches present, acquisition
yields the `Release` document plus its detached signature. -/
lemma acquire_gpg_some (env : Env) (dl : Downloader) (st : DLState) (rd sd : ByteSeq)
    (k : String)
    (h1 : env.fetch (inrelease_url dl) = none)
    (h2 : env.fetch (release_url dl) = some rd)
    (hk : truthyStr dl.repository_key = some k)
    (h3 : env.fetch (release_gpg_url dl) = some sd) :
    acquire_release env dl st =
      (.ok (rd, some sd),
       ⟨st.fetched ++ [inrelease_url dl, release_url dl, release_gpg_url dl], st.written⟩) := by
  rw [acquire_release]
  simp only [try_fetch_eq, h1]
  rw [fetch_checked_some env ⟨st.fetched ++ [inrelease_url dl], st.written⟩ (release_url dl) rd h2]
  simp only [hk]
  rw [fetch_checked_some env ⟨st.fetched ++ [inrelease_url dl] ++ [release_url dl], st.written⟩
        (release_gpg_url dl) sd h3]
  simp

/-- Appending to a string is cancellative on the left. -/
lemma string_append_left_cancel (a b c : String) (h : a ++ b = a ++ c) : b = c := by
  have hd : a.data ++ b.data = a.data ++ c.data := by
    rw [← String.data_append, ← String.data_append, h]
  have h2 := List.append_cancel_left hd
  cases b; cases c; exact congrArg String.mk h2

/-- The three metadata URLs are pairwise distinct for any repository. -/
lemma metadata_urls_nodup (dl : Downloader) : (metadata_urls dl).Nodup := by
  have base := dl.uri ++ "/dists/" ++ dl.dist
  have h1 : inrelease_url dl ≠ release_url dl := by
    intro h
    have := string_append_left_cancel (dl.uri ++ "/dists/" ++ dl.dist) "/InRelease" "/Release"
      (by simpa [inrelease_url, release_url, String.append_assoc] using h)
    exact absurd this (by decide)
  have h2 : inrelease_url dl ≠ release_gpg_url dl := by
    intro h
    have := string_append_left_cancel (dl.uri ++ "/dists/" ++ dl.dist) "/InRelease" "/Release.gpg"
      (by simpa [inrelease_url, release_gpg_url, String.append_assoc] using h)
    exact absurd this (by decide)
  have h3 : release_url dl ≠ release_gpg_url dl := by
    intro h
    have := string_append_left_cancel (dl.uri ++ "/dists/" ++ dl.dist) "/Release" "/Release.gpg"
      (by simpa [release_url, release_gpg_url, String.append_assoc] using h)
    exact absurd this (by decide)
  simp [metadata_urls, h1, h2, h3]

/-- Metadata acquisition starting from a fresh state: the trace is an
in-order selection of the three metadata URLs and nothing is written. -/
lemma acquire_init_fetched (env : Env) (dl : Downloader) :
    (acquire_release env dl init_state).2.fetched.Sublist (metadata_urls dl) ∧
    (acquire_release env dl init_state).2.written = [] := by
  cases h1 : env.fetch (inrelease_url dl) with
  | some d =>
      rw [acquire_inrel_some env dl init_state d h1]
      refine ⟨?_, rfl⟩
      simp [init_state, metadata_urls]
  | none =>
      cases h2 : env.fetch (release_url dl) with
      | none =>
          rw [acquire_rel_none env dl init_state h1 h2]
          refine ⟨?_, rfl⟩
          simp [init_state, metadata_urls]
      | some rd =>
          cases hk : truthyStr dl.repository_key with
          | none =>
              rw [acquire_rel_nokey env dl init_state rd h1 h2 hk]
              refine ⟨?_, rfl⟩
              simp [init_state, metadata_urls]
          | some k =>
              cases h3 : env.fetch (release_gpg_url dl) with
              | none =>
                  rw [acquire_gpg_none env dl init_state rd k h1 h2 hk h3]
                  refine ⟨?_, rfl⟩
                  simp [init_state, metadata_urls]
              | some sd =>
                  rw [acquire_gpg_some env dl init_state rd sd k h1 h2 hk h3]
                  refine ⟨?_, rfl⟩
                  simp [init_state, metadata_urls]

/-- The release-parsing stage either succeeds or reports the missing
checksum section; in particular it never reports a signature failure. -/
lemma parse_release_file_cases (env : Env) (dl : Downloader) (rd : ByteSeq) :
    (∃ files, parse_release_file env dl rd = .ok files) ∨
    parse_release_file env dl rd = .fatal .noChecksumSection := by
  rw [parse_release_file]
  cases truthySecs (env.parseRelease rd).sha512 with
  | some sec => exact Or.inl ⟨_, rfl⟩
  | none =>
      cases truthySecs (env.parseRelease rd).sha256 with
      | some sec => exact Or.inl ⟨_, rfl⟩
      | none => exact Or.inr rfl

/-- Unfolding the payload stage: a control entry without `Filename` raises
`KeyError`. -/
lemma dlpkg_no_filename (env : Env) (dl : Downloader) (package : Paragraph)
    (dest : String) (st : DLState)
    (hfn : pget package "Filename" = none) :
    download_package env dl package dest st = (.exn (.keyError "Filename"), st) := by
  rw [download_package]; simp only [hfn]

/-- Unfolding the payload stage: a `Filename` the line-165 regex rejects
makes `.group(1)` raise `AttributeError`. -/
lemma dlpkg_bad_name (env : Env) (dl : Downloader) (package : Paragraph)
    (dest : String) (st : DLState) (full_name : String)
    (hfn : pget package "Filename" = some full_name)
    (hre : reMatchDeb full_name = none) :
    download_package env dl package dest st = (.exn .attributeError, st) := by
  rw [download_package]; simp only [hfn, hre]

/-- Unfolding the payload stage: the payload fetch is mandatory. -/
lemma dlpkg_unreachable (env : Env) (dl : Downloader) (package : Paragraph)
    (dest : String) (st : DLState) (full_name package_name : String)
    (hfn : pget package "Filename" = some full_name)
    (hre : reMatchDeb full_name = some package_name)
    (hfetch : env.fetch (dl.uri ++ "/" ++ full_name) = none) :
    download_package env dl package dest st =
      (.fatal (.repositoryUnreachable (dl.uri ++ "/" ++ full_name)),
       ⟨st.fetched ++ [dl.uri ++ "/" ++ full_name], st.written⟩) := by
  rw [download_package]
  simp only [hfn, hre, fetch_checked_none env st (dl.uri ++ "/" ++ full_name) hfetch]

/-- Unfolding the payload stage: a failing payload checksum aborts before
anything is written. -/
lemma dlpkg_verify_fatal (env : Env) (dl : Downloader) (package : Paragraph)
    (dest : String) (st : DLState) (full_name package_name : String) (data : ByteSeq)
    (e : EdiError)
    (hfn : pget package "Filename" = some full_name)
    (hre : reMatchDeb full_name = some package_name)
    (hfetch : env.fetch (dl.uri ++ "/" ++ full_name) = some data)
    (hver : verify_checksum env dl data package = .fatal e) :
    download_package env dl package dest st =
      (.fatal e, ⟨st.fetched ++ [dl.uri ++ "/" ++ full_name], st.written⟩) := by
  rw [download_package]
  simp only [hfn, hre, fetch_checked_some env st (dl.uri ++ "/" ++ full_name) data hfetch, hver]

/-- Unfolding the payload stage: an exception inside checksum verification
propagates before anything is written. -/
lemma dlpkg_verify_exn (env : Env) (dl : Downloader) (package : Paragraph)
    (dest : String) (st : DLState) (full_name package_name : String) (data : ByteSeq)
    (e : PyError)
    (hfn : pget package "Filename" = some full_name)
    (hre : reMatchDeb full_name = some package_name)
    (hfetch : env.fetch (dl.uri ++ "/" ++ full_name) = some data)
    (hver : verify_checksum env dl data package = .exn e) :
    download_package env dl package dest st =
      (.exn e, ⟨st.fetched ++ [dl.uri ++ "/" ++ full_name], st.written⟩) := by
  rw [download_package]
  simp only [hfn, hre, fetch_checked_some env st (dl.uri ++ "/" ++ full_name) data hfetch, hver]

/-- Unfolding the payload stage: a verified payload is written (only now)
and its path returned. -/
lemma dlpkg_ok (env : Env) (dl : Downloader) (package : Paragraph)
    (dest : String) (st : DLState) (full_name package_name : String) (data : ByteSeq)
    (hfn : pget package "Filename" = some full_name)
    (hre : reMatchDeb full_name = some package_name)
    (hfetch : env.fetch (dl.uri ++ "/" ++ full_name) = some data)
    (hver : verify_checksum env dl data package = .ok ()) :
    download_package env dl package dest st =
      (.ok (os_path_join dest package_name),
       ⟨st.fetched ++ [dl.uri ++ "/" ++ full_name],
        st.written ++ [(os_path_join dest package_name, data)]⟩) := by
  rw [download_package]
  simp only [hfn, hre, fetch_checked_some env st (dl.uri ++ "/" ++ full_name) data hfetch, hver]

/-- The payload stage never reports a signature failure. -/
lemma download_package_ne_sigfail (env : Env) (dl : Downloader) (package : Paragraph)
    (dest : String) (st : DLState) :
    (download_package env dl package dest st).1 ≠ .fatal .signatureVerificationFailed := by
  cases hfn : pget package "Filename" with
  | none => rw [dlpkg_no_filename env dl package dest st hfn]; simp
  | some full_name =>
      cases hre : reMatchDeb full_name with
      | none => rw [dlpkg_bad_name env dl package dest st full_name hfn hre]; simp
      | some package_name =>
          cases hfetch : env.fetch (dl.uri ++ "/" ++ full_name) with
          | none =>
              rw [dlpkg_unreachable env dl package dest st full_name package_name hfn hre hfetch]
              simp
          | some data =>
              rcases verify_checksum_over_cases env data package dl.checksum_algorithms with
                hver | hver | hver
              · rw [dlpkg_ok env dl package dest st full_name package_name data hfn hre
                      hfetch hver]
                simp
              · rw [dlpkg_verify_fatal env dl package dest st full_name package_name data
                      .checksumMismatch hfn hre hfetch hver]
                simp
              · rw [dlpkg_verify_exn env dl package dest st full_name package_name data
                      .nameError hfn hre hfetch hver]
                simp

/-- The whole post-verification pipeline never reports a signature failure:
once trust verification has passed, no later stage can re-raise it. -/
lemma locate_ne_sigfail (env : Env) (dl : Downloader) (nm dest : String) (rd : ByteSeq)
    (st : DLState) :
    (locate_and_download env dl nm dest rd st).1 ≠ .fatal .signatureVerificationFailed := by
  rw [locate_and_download]
  rcases parse_release_file_cases env dl rd with ⟨files, hp⟩ | hp
  · rw [hp]
    dsimp only
    rcases hfind : find_package_in_package_files env dl nm files [] st with ⟨r, st1⟩
    cases r with
    | fatal e =>
        rcases find_fatal_classify env dl nm files [] st e st1 hfind with he | ⟨n, he⟩ <;>
          simp [he]
    | exn e => simp
    | ok o =>
        cases o with
        | none => simp
        | some sec => exact download_package_ne_sigfail env dl sec dest st1
  · rw [hp]
    simp

/-- Unfolding `download`: a configured key and a failed signature check
abort immediately after metadata acquisition. -/
lemma download_key_sigfail (env : Env) (dl : Downloader) (nm dest k : String)
    (content : ByteSeq) (sig : Option ByteSeq) (st1 : DLState)
    (hp : nm ≠ "")
    (hacq : acquire_release env dl init_state = (.ok (content, sig), st1))
    (hk : truthyStr dl.repository_key = some k)
    (hv : verify_signature env (env.fetchKey k) content sig = false) :
    download env dl nm dest = (.fatal .signatureVerificationFailed, st1) := by
  rw [download]
  simp only [hp, if_false, hacq, hk, hv, Bool.false_eq_true, if_neg]

/-- Unfolding `download`: a configured key and a passing signature check
continue into the locate-and-download pipeline. -/
lemma download_key_ok (env : Env) (dl : Downloader) (nm dest k : String)
    (content : ByteSeq) (sig : Option ByteSeq) (st1 : DLState)
    (hp : nm ≠ "")
    (hacq : acquire_release env dl init_state = (.ok (content, sig), st1))
    (hk : truthyStr dl.repository_key = some k)
    (hv : verify_signature env (env.fetchKey k) content sig = true) :
    download env dl nm dest = locate_and_download env dl nm dest content st1 := by
  rw [download]
  simp only [hp, if_false, hacq, hk, hv, if_true]

/-- Unfolding `download`: without a key the pipeline continues unverified. -/
lemma download_nokey (env : Env) (dl : Downloader) (nm dest : String)
    (content : ByteSeq) (sig : Option ByteSeq) (st1 : DLState)
    (hp : nm ≠ "")
    (hacq : acquire_release env dl init_state = (.ok (content, sig), st1))
    (hk : truthyStr dl.repository_key = none) :
    download env dl nm dest = locate_and_download env dl nm dest content st1 := by
  rw [download]
  simp only [hp, if_false, hacq, hk]

/-! ### Claim theorems -/

/-- Claim C1: with a repository key configured (and the metadata acquisition
succeeding, which is what brings the call to the trust-verification step),
`download()` proceeds past trust verification exactly when the signature
verifier's status output contains both a `GOODSIG` and a `VALIDSIG` line; if
either is missing it aborts with the signature-verification failure, at which
point only metadata URLs have been fetched (no index file or payload) and
nothing has been written. -/
theorem claim_C1 (env : Env) (dl : Downloader) (pname dest k : String)
    (content : ByteSeq) (sig : Option ByteSeq) (st1 : DLState)
    (hk : truthyStr dl.repository_key = some k)
    (hp : pname ≠ "")
    (hacq : acquire_release env dl init_state = (.ok (content, sig), st1)) :
    ((hasStatusLine (env.gpgStatus content sig (env.fetchKey k)) "[GNUPG:] GOODSIG" &&
        hasStatusLine (env.gpgStatus content sig (env.fetchKey k)) "[GNUPG:] VALIDSIG") = false →
       download env dl pname dest = (.fatal .signatureVerificationFailed, st1) ∧
       st1.fetched.Sublist (metadata_urls dl) ∧ st1.written = []) ∧
    ((hasStatusLine (env.gpgStatus content sig (env.fetchKey k)) "[GNUPG:] GOODSIG" &&
        hasStatusLine (env.gpgStatus content sig (env.fetchKey k)) "[GNUPG:] VALIDSIG") = true →
       (download env dl pname dest).1 ≠ .fatal .signatureVerificationFailed) := by
  have hsub := acquire_init_fetched env dl
  rw [hacq] at hsub
  constructor
  · intro hmark
    refine ⟨download_key_sigfail env dl pname dest k content sig st1 hp hacq hk ?_, hsub.1, hsub.2⟩
    simpa [verify_signature] using hmark
  · intro hmark
    rw [download_key_ok env dl pname dest k content sig st1 hp hacq hk
          (by simpa [verify_signature] using hmark)]
    exact locate_ne_sigfail env dl pname dest content st1

/-- Claim C6: `InRelease` is tried first and, when present, settles the
acquisition; when absent, the `Release` fetch is mandatory (its failure is
the fatal repository-unreachable error) and `Release.gpg` is additionally
fetched exactly when a repository key was supplied, its failure then also
being fatal; a failed `InRelease` fetch degrades to the `Release` path, and
no URL is ever fetched twice. -/
theorem claim_C6 (env : Env) (dl : Downloader) :
    (∀ d, env.fetch (inrelease_url dl) = some d →
       acquire_release env dl init_state = (.ok (d, none), ⟨[inrelease_url dl], []⟩)) ∧
    (env.fetch (inrelease_url dl) = none → env.fetch (release_url dl) = none →
       acquire_release env dl init_state =
         (.fatal (.repositoryUnreachable (release_url dl)),
          ⟨[inrelease_url dl, release_url dl], []⟩)) ∧
    (∀ rd, env.fetch (inrelease_url dl) = none → env.fetch (release_url dl) = some rd →
       truthyStr dl.repository_key = none →
       acquire_release env dl init_state =
         (.ok (rd, none), ⟨[inrelease_url dl, release_url dl], []⟩)) ∧
    (∀ rd k, env.fetch (inrelease_url dl) = none → env.fetch (release_url dl) = some rd →
       truthyStr dl.repository_key = some k → env.fetch (release_gpg_url dl) = none →
       acquire_release env dl init_state =
         (.fatal (.repositoryUnreachable (release_gpg_url dl)),
          ⟨[inrelease_url dl, release_url dl, release_gpg_url dl], []⟩)) ∧
    (∀ rd sd k, env.fetch (inrelease_url dl) = none → env.fetch (release_url dl) = some rd →
       truthyStr dl.repository_key = some k → env.fetch (release_gpg_url dl) = some sd →
       acquire_release env dl init_state =
         (.ok (rd, some sd),
          ⟨[inrelease_url dl, release_url dl, release_gpg_url dl], []⟩)) ∧
    (acquire_release env dl init_state).2.fetched.Nodup := by
  refine ⟨?_, ?_, ?_, ?_, ?_, ?_⟩
  · intro d h1
    simpa [init_state] using acquire_inrel_some env dl init_state d h1
  · intro h1 h2
    simpa [init_state] using acquire_rel_none env dl init_state h1 h2
  · intro rd h1 h2 hk
    simpa [init_state] using acquire_rel_nokey env dl init_state rd h1 h2 hk
  · intro rd k h1 h2 hk h3
    simpa [init_state] using acquire_gpg_none env dl init_state rd k h1 h2 hk h3
  · intro rd sd k h1 h2 hk h3
    simpa [init_state] using acquire_gpg_some env dl init_state rd sd k h1 h2 hk h3
  · exact ((acquire_init_fetched env dl).1).nodup (metadata_urls_nodup dl)

/-- Claim C7: a payload whose computed checksum differs from the recorded
digest makes `download_package` abort with the checksum-mismatch error, and
on every non-successful outcome of the payload stage nothing at all is
written into the destination directory (verification happens before the file
is opened, so no partial file can be left behind). -/
theorem claim_C7 :
    (∀ (env : Env) (dl : Downloader) (package : Paragraph) (dest : String) (st : DLState)
       (full_name package_name : String) (data : ByteSeq),
       pget package "Filename" = some full_name →
       reMatchDeb full_name = some package_name →
       env.fetch (dl.uri ++ "/" ++ full_name) = some data →
       verify_checksum env dl data package = .fatal .checksumMismatch →
       download_package env dl package dest st =
         (.fatal .checksumMismatch,
          ⟨st.fetched ++ [dl.uri ++ "/" ++ full_name], st.written⟩)) ∧
    (∀ (env : Env) (dl : Downloader) (package : Paragraph) (dest : String) (st : DLState),
       (∀ s, (download_package env dl package dest st).1 ≠ .ok s) →
       (download_package env dl package dest st).2.written = st.written) := by
  constructor
  · intro env dl package dest st full_name package_name data hfn hre hfetch hver
    exact dlpkg_verify_fatal env dl package dest st full_name package_name data
      .checksumMismatch hfn hre hfetch hver
  · intro env dl package dest st hnot
    cases hfn : pget package "Filename" with
    | none => rw [dlpkg_no_filename env dl package dest st hfn]
    | some full_name =>
        cases hre : reMatchDeb full_name with
        | none => rw [dlpkg_bad_name env dl package dest st full_name hfn hre]
        | some package_name =>
            cases hfetch : env.fetch (dl.uri ++ "/" ++ full_name) with
            | none =>
                rw [dlpkg_unreachable env dl package dest st full_name package_name hfn hre
                      hfetch]
            | some data =>
                rcases verify_checksum_over_cases env data package dl.checksum_algorithms with
                  hver | hver | hver
                · exact absurd
                    (by
                      rw [dlpkg_ok env dl package dest st full_name package_name data hfn hre
                            hfetch hver]
                      : (download_package env dl package dest st).1 =
                          .ok (os_path_join dest package_name))
                    (hnot (os_path_join dest package_name))
                · rw [dlpkg_verify_fatal env dl package dest st full_name package_name data
                        .checksumMismatch hfn hre hfetch hver]
                · rw [dlpkg_verify_exn env dl package dest st full_name package_name data
                        .nameError hfn hre hfetch hver]

/-- Fixture repository descriptor with a configured key. -/
def dlC1 : Downloader :=
  ⟨"deb u d m", some "K", ["a"], false, "u", "d", ["m"],
   ["gz", "bz2", "xz"], ["SHA512", "SHA256"]⟩

/-- Fixture environment whose verifier reports a good but not valid
signature. -/
def envC1 : Env where
  fetch := fun url => if url = "u/dists/d/InRelease" then some [9] else none
  hashHex := fun _ _ => "H"
  gpgStatus := fun _ _ _ => "[GNUPG:] GOODSIG X"
  fetchKey := fun _ => [5]
  parseRelease := fun _ => ⟨none, none⟩
  decompress := fun d => d
  parsePackages := fun _ => []

/-- Witness for C1: with the fixture key and a status output missing the
`VALIDSIG` marker, the download aborts with the signature failure having
fetched only `InRelease` and written nothing. -/
theorem claim_C1_witness :
    download envC1 dlC1 "p" "/tmp" =
      (.fatal .signatureVerificationFailed, ⟨["u/dists/d/InRelease"], []⟩) ∧
    (⟨["u/dists/d/InRelease"], []⟩ : DLState).fetched.Sublist (metadata_urls dlC1) ∧
    (⟨["u/dists/d/InRelease"], []⟩ : DLState).written = [] :=
  (claim_C1 envC1 dlC1 "p" "/tmp" "K" [9] none ⟨["u/dists/d/InRelease"], []⟩
    (by decide) (by decide) (by decide)).1 (by decide)

/-- Fixture repository descriptor without a key. -/
def dlC6 : Downloader :=
  ⟨"deb u d m", none, ["a"], false, "u", "d", ["m"],
   ["gz", "bz2", "xz"], ["SHA512", "SHA256"]⟩

/-- Fixture environment serving only `InRelease`. -/
def envC6a : Env where
  fetch := fun url => if url = "u/dists/d/InRelease" then some [7] else none
  hashHex := fun _ _ => "H"
  gpgStatus := fun _ _ _ => ""
  fetchKey := fun _ => []
  parseRelease := fun _ => ⟨none, none⟩
  decompress := fun d => d
  parsePackages := fun _ => []

/-- Fixture environment serving nothing at all. -/
def envC6b : Env where
  fetch := fun _ => none
  hashHex := fun _ _ => "H"
  gpgStatus := fun _ _ _ => ""
  fetchKey := fun _ => []
  parseRelease := fun _ => ⟨none, none⟩
  decompress := fun d => d
  parsePackages := fun _ => []

/-- Witness for C6: a present `InRelease` settles acquisition with a single
fetch; with both metadata documents absent the mandatory `Release` fetch
aborts after exactly the two attempts. -/
theorem claim_C6_witness :
    acquire_release envC6a dlC6 init_state =
      (.ok ([7], none), ⟨[inrelease_url dlC6], []⟩) ∧
    acquire_release envC6b dlC6 init_state =
      (.fatal (.repositoryUnreachable (release_url dlC6)),
       ⟨[inrelease_url dlC6, release_url dlC6], []⟩) :=
  ⟨(claim_C6 envC6a dlC6).1 [7] (by decide),
   (claim_C6 envC6b dlC6).2.1 (by decide) (by decide)⟩

/-- Fixture repository descriptor for the payload-stage claims. -/
def dlC7 : Downloader :=
  ⟨"deb u d m", none, ["a"], false, "u", "d", ["m"],
   ["gz", "bz2", "xz"], ["SHA512", "SHA256"]⟩

/-- Fixture control entry whose recorded digest does not match the data. -/
def pkgC7 : Paragraph := [("Package", "p"), ("Filename", "p/a.deb"), ("SHA512", "Y")]

/-- Fixture environment for a payload checksum mismatch. -/
def envC7 : Env where
  fetch := fun url => if url = "u/p/a.deb" then some [3] else none
  hashHex := fun _ _ => "X"
  gpgStatus := fun _ _ _ => ""
  fetchKey := fun _ => []
  parseRelease := fun _ => ⟨none, none⟩
  decompress := fun d => d
  parsePackages := fun _ => []

/-- Witness for C7: the fixture payload fails verification, the stage aborts
with the checksum mismatch, and nothing is written. -/
theorem claim_C7_witness :
    download_package envC7 dlC7 pkgC7 "/tmp" init_state =
      (.fatal .checksumMismatch, ⟨["u/p/a.deb"], []⟩) ∧
    (download_package envC7 dlC7 pkgC7 "/tmp" init_state).2.written = [] :=
  ⟨claim_C7.1 envC7 dlC7 pkgC7 "/tmp" init_state "p/a.deb" "a.deb" [3]
     (by decide) (by decide) (by decide) (by decide),
   claim_C7.2 envC7 dlC7 pkgC7 "/tmp" init_state
     (by
       intro s h
       rw [show download_package envC7 dlC7 pkgC7 "/tmp" init_state =
             (.fatal .checksumMismatch, ⟨["u/p/a.deb"], []⟩) from by decide] at h
       cases h)⟩

/-- Claim C2: release parsing selects exactly one checksum section — SHA512
when truthy, else SHA256 when truthy, else the fatal no-checksum-section
error — and per-item checksum verification with the configured preference
list checks only the SHA512 digest of an entry that carries both digests: a
wrong SHA512 digest fails verification even when the SHA256 digest matches
the data. -/
theorem claim_C2 :
    (∀ (env : Env) (dl : Downloader) (rd : ByteSeq) (sec : List Paragraph),
       truthySecs (env.parseRelease rd).sha512 = some sec →
       parse_release_file env dl rd = .ok (filterByName (packagesFilter dl) sec)) ∧
    (∀ (env : Env) (dl : Downloader) (rd : ByteSeq) (sec : List Paragraph),
       truthySecs (env.parseRelease rd).sha512 = none →
       truthySecs (env.parseRelease rd).sha256 = some sec →
       parse_release_file env dl rd = .ok (filterByName (packagesFilter dl) sec)) ∧
    (∀ (env : Env) (dl : Downloader) (rd : ByteSeq),
       truthySecs (env.parseRelease rd).sha512 = none →
       truthySecs (env.parseRelease rd).sha256 = none →
       parse_release_file env dl rd = .fatal .noChecksumSection) ∧
    (∀ (env : Env) (dl : Downloader) (data : ByteSeq) (item : Paragraph) (c512 c256 : String),
       dl.checksum_algorithms = ["SHA512", "SHA256"] →
       checksumField item "SHA512" = some c512 →
       checksumField item "SHA256" = some c256 →
       env.hashHex "sha256" data = c256 →
       env.hashHex "sha512" data ≠ c512 →
       verify_checksum env dl data item = .fatal .checksumMismatch) := by
  refine ⟨?_, ?_, ?_, ?_⟩
  · intro env dl rd sec h
    rw [parse_release_file]
    simp only [h]
  · intro env dl rd sec h5 h2
    rw [parse_release_file]
    simp only [h5, h2]
  · intro env dl rd h5 h2
    rw [parse_release_file]
    simp only [h5, h2]
  · intro env dl data item c512 c256 halg h512 h256 hmatch hbad
    rw [verify_checksum, halg, verify_checksum_over]
    simp only [h512, strLower_SHA512]
    simp [hbad]

/-- Fixture descriptor for the checksum-preference claims. -/
def dlC2 : Downloader :=
  ⟨"deb u d m", none, ["a"], false, "u", "d", ["m"],
   ["gz", "bz2", "xz"], ["SHA512", "SHA256"]⟩

/-- Fixture release row kept by the candidate filter. -/
def rowC2 : Paragraph := [("name", "m/binary-a/Packages.gz"), ("sha512", "D")]

/-- Fixture environment whose release document has both checksum sections. -/
def envC2a : Env where
  fetch := fun _ => none
  hashHex := fun alg data => if alg = "sha256" ∧ data = [1] then "GOOD256" else "BAD"
  gpgStatus := fun _ _ _ => ""
  fetchKey := fun _ => []
  parseRelease := fun _ => ⟨some [rowC2], some []⟩
  decompress := fun d => d
  parsePackages := fun _ => []

/-- Fixture environment whose release document has an empty SHA512 section
and a populated SHA256 section. -/
def envC2b : Env where
  fetch := fun _ => none
  hashHex := fun _ _ => "H"
  gpgStatus := fun _ _ _ => ""
  fetchKey := fun _ => []
  parseRelease := fun _ => ⟨some [], some [rowC2]⟩
  decompress := fun d => d
  parsePackages := fun _ => []

/-- Fixture environment whose release document has no checksum section. -/
def envC2c : Env where
  fetch := fun _ => none
  hashHex := fun _ _ => "H"
  gpgStatus := fun _ _ _ => ""
  fetchKey := fun _ => []
  parseRelease := fun _ => ⟨none, some []⟩
  decompress := fun d => d
  parsePackages := fun _ => []

/-- Fixture item carrying both digests, where only the SHA256 one matches
the data `[1]` under `envC2a.hashHex`. -/
def itemC2 : Paragraph := [("SHA512", "WRONG"), ("SHA256", "GOOD256")]

/-- Witness for C2: the three section-selection branches on concrete release
documents, and a concrete entry whose SHA256 digest matches while its SHA512
digest is wrong still fails verification. -/
theorem claim_C2_witness :
    parse_release_file envC2a dlC2 [] = .ok (filterByName (packagesFilter dlC2) [rowC2]) ∧
    parse_release_file envC2b dlC2 [] = .ok (filterByName (packagesFilter dlC2) [rowC2]) ∧
    parse_release_file envC2c dlC2 [] = .fatal .noChecksumSection ∧
    verify_checksum envC2a dlC2 [1] itemC2 = .fatal .checksumMismatch :=
  ⟨claim_C2.1 envC2a dlC2 [] [rowC2] (by decide),
   claim_C2.2.1 envC2b dlC2 [] [rowC2] (by decide) (by decide),
   claim_C2.2.2.1 envC2c dlC2 [] (by decide) (by decide),
   claim_C2.2.2.2 envC2a dlC2 [1] itemC2 "WRONG" "GOOD256"
     (by decide) (by decide) (by decide) (by decide) (by decide)⟩

/-- Claim C9 (amended): construction of the downloader fails only when the
repository string is missing or empty, or the architectures list is missing
or empty; an undecomposable repository specification or an empty component
list is accepted — the parsed entry's invalid flag and component list are
never checked. -/
theorem claim_C9 (repository repository_key : Option String)
    (architectures : Option (List String)) :
    (∃ d, packageDownloader_init repository repository_key architectures = .ok d) ↔
      (truthyStr repository ≠ none ∧ architectures ≠ none ∧ architectures ≠ some []) := by
  constructor
  · rintro ⟨d, hd⟩
    rw [packageDownloader_init] at hd
    by_cases h1 : truthyStr repository = none
    · simp [h1] at hd
    · by_cases h2 : architectures = none ∨ architectures = some []
      · simp [h1, h2] at hd
      · push_neg at h2
        exact ⟨h1, h2.1, h2.2⟩
  · rintro ⟨h1, h2, h3⟩
    rw [packageDownloader_init]
    simp only [h1, if_false]
    have h4 : ¬(architectures = none ∨ architectures = some []) := by
      rintro (h | h)
      · exact h2 h
      · exact h3 h
    simp [h4, h1]

/-- Counterexample for C9 as stated: a specification without components and
an undecomposable specification are both accepted by the constructor — it
does not fail with the invalid-repository-spec error in either case. -/
theorem claim_C9_counterexample :
    packageDownloader_init (some "deb http://h bb") none (some ["amd64"]) =
      .ok ⟨"deb http://h bb", none, ["amd64"], false, "http://h", "bb", [],
           ["gz", "bz2", "xz"], ["SHA512", "SHA256"]⟩ ∧
    packageDownloader_init (some "certainly not a sources list line") none (some ["amd64"]) =
      .ok ⟨"certainly not a sources list line", none, ["amd64"], true, "", "", [],
           ["gz", "bz2", "xz"], ["SHA512", "SHA256"]⟩ := by
  constructor <;> decide

/-- Witness for C9: at a concrete well-formed input construction succeeds. -/
theorem claim_C9_witness :
    ∃ d, packageDownloader_init (some "deb http://h bb m") none (some ["amd64"]) = .ok d :=
  (claim_C9 (some "deb http://h bb m") none (some ["amd64"])).mpr
    ⟨by decide, by decide, by decide⟩

/-- Claim C10: an item carrying no SHA512 or SHA256 checksum under either
field-name case does not produce the intended no-checksum-found fatal error:
the error branch at line 133 references the undefined name `package_item`,
so the call raises an uncaught `NameError` instead. -/
theorem claim_C10 (env : Env) (dl : Downloader) (data : ByteSeq) (item : Paragraph)
    (halg : dl.checksum_algorithms = ["SHA512", "SHA256"])
    (h512 : checksumField item "SHA512" = none)
    (h256 : checksumField item "SHA256" = none) :
    verify_checksum env dl data item = .exn .nameError := by
  rw [verify_checksum, halg, verify_checksum_over]
  simp only [h512]
  rw [verify_checksum_over]
  simp only [h256]
  rfl

/-- Fixture descriptor for the missing-checksum claim. -/
def dlC10 : Downloader :=
  ⟨"deb u d m", none, ["a"], false, "u", "d", ["m"],
   ["gz", "bz2", "xz"], ["SHA512", "SHA256"]⟩

/-- Fixture environment for the missing-checksum claim. -/
def envC10 : Env where
  fetch := fun _ => none
  hashHex := fun _ _ => "H"
  gpgStatus := fun _ _ _ => ""
  fetchKey := fun _ => []
  parseRelease := fun _ => ⟨none, none⟩
  decompress := fun d => d
  parsePackages := fun _ => []

/-- Witness for C10: a concrete checksum-less item raises the `NameError`. -/
theorem claim_C10_witness :
    verify_checksum envC10 dlC10 [0] [("Package", "p")] = .exn .nameError :=
  claim_C10 envC10 dlC10 [0] [("Package", "p")] (by decide) (by decide) (by decide)

/-- Unfolding the locate stage: a release-parsing abort propagates. -/
lemma locate_parse_fatal (env : Env) (dl : Downloader) (nm dest : String) (rd : ByteSeq)
    (st : DLState) (e : EdiError)
    (hp : parse_release_file env dl rd = .fatal e) :
    locate_and_download env dl nm dest rd st = (.fatal e, st) := by
  rw [locate_and_download]; simp only [hp]

/-- Unfolding the locate stage: a fatal find-loop outcome propagates. -/
lemma locate_find_fatal (env : Env) (dl : Downloader) (nm dest : String) (rd : ByteSeq)
    (st st1 : DLState) (files : List Paragraph) (e : EdiError)
    (hp : parse_release_file env dl rd = .ok files)
    (hf : find_package_in_package_files env dl nm files [] st = (.fatal e, st1)) :
    locate_and_download env dl nm dest rd st = (.fatal e, st1) := by
  rw [locate_and_download]; simp only [hp]; rw [hf]

/-- Unfolding the locate stage: an exhausted scan reports the package as not
found. -/
lemma locate_notfound (env : Env) (dl : Downloader) (nm dest : String) (rd : ByteSeq)
    (st st1 : DLState) (files : List Paragraph)
    (hp : parse_release_file env dl rd = .ok files)
    (hf : find_package_in_package_files env dl nm files [] st = (.ok none, st1)) :
    locate_and_download env dl nm dest rd st = (.fatal (.packageNotFound nm), st1) := by
  rw [locate_and_download]; simp only [hp]; rw [hf]

/-- Unfolding the locate stage: a located control entry moves to the payload
stage. -/
lemma locate_found (env : Env) (dl : Downloader) (nm dest : String) (rd : ByteSeq)
    (st st1 : DLState) (files : List Paragraph) (sec : Paragraph)
    (hp : parse_release_file env dl rd = .ok files)
    (hf : find_package_in_package_files env dl nm files [] st = (.ok (some sec), st1)) :
    locate_and_download env dl nm dest rd st = download_package env dl sec dest st1 := by
  rw [locate_and_download]; simp only [hp]; rw [hf]

/-- Membership in the fetch trace survives the rest of the find loop. -/
lemma find_fetched_mem (env : Env) (dl : Downloader) (nm : String) (files : List Paragraph)
    (downloaded : List String) (st : DLState) (u : String) (hu : u ∈ st.fetched) :
    u ∈ (find_package_in_package_files env dl nm files downloaded st).2.fetched := by
  obtain ⟨l, hl⟩ := find_fetched_mono env dl nm files downloaded st
  rw [hl]
  exact List.mem_append_left l hu

/-- When the find loop exhausts its candidates without a hit, every candidate
was accounted for: its URL was attempted, or its component/arch key was
already recorded at entry, or some fetched candidate carried the same key
(the compression-preference skip). -/
lemma find_none_exhausts (env : Env) (dl : Downloader) (nm : String) :
    ∀ (files : List Paragraph) (downloaded : List String) (st st1 : DLState),
      find_package_in_package_files env dl nm files downloaded st = (.ok none, st1) →
      ∀ f ∈ files, ∃ n, pget f "name" = some n ∧
        (candidate_url dl n ∈ st1.fetched ∨
         ∃ pfx, packagesPfx n = some pfx ∧
           (pfx ∈ downloaded ∨
            ∃ f2 ∈ files, ∃ n2, pget f2 "name" = some n2 ∧ packagesPfx n2 = some pfx ∧
              candidate_url dl n2 ∈ st1.fetched)) := by
  intro files
  induction files with
  | nil => intro downloaded st st1 h f hf; exact absurd hf (List.not_mem_nil f)
  | cons f rest ih =>
      intro downloaded st st1 h g hg
      cases hname : pget f "name" with
      | none =>
          rw [find_cons_keyerr env dl nm f rest downloaded st hname] at h
          exact absurd h (by simp)
      | some name =>
          cases hpfx : packagesPfx name with
          | none =>
              rw [find_cons_parseerr env dl nm f rest downloaded st name hname hpfx] at h
              exact absurd h (by simp)
          | some pfx =>
              cases hmem : downloaded.contains pfx with
              | true =>
                  rw [find_cons_skip env dl nm f rest downloaded st name pfx hname hpfx hmem] at h
                  rcases List.mem_cons.mp hg with hgf | hgrest
                  · subst hgf
                    exact ⟨name, hname, Or.inr ⟨pfx, hpfx, Or.inl (by simpa using hmem)⟩⟩
                  · obtain ⟨n, hn, hcase⟩ := ih downloaded st st1 h g hgrest
                    refine ⟨n, hn, ?_⟩
                    rcases hcase with hc | ⟨pfx2, hpfx2, hc⟩
                    · exact Or.inl hc
                    · refine Or.inr ⟨pfx2, hpfx2, ?_⟩
                      rcases hc with hc | ⟨f2, hf2, n2, hn2, hp2, hu2⟩
                      · exact Or.inl hc
                      · exact Or.inr ⟨f2, List.mem_cons_of_mem f hf2, n2, hn2, hp2, hu2⟩
              | false =>
                  cases hfetch : env.fetch (candidate_url dl name) with
                  | none =>
                      rw [find_cons_miss env dl nm f rest downloaded st name pfx hname hpfx
                            hmem hfetch] at h
                      rcases List.mem_cons.mp hg with hgf | hgrest
                      · subst hgf
                        refine ⟨name, hname, Or.inl ?_⟩
                        have hmemtr : candidate_url dl name ∈
                            (⟨st.fetched ++ [candidate_url dl name], st.written⟩ : DLState).fetched := by
                          simp
                        have := find_fetched_mem env dl nm rest downloaded
                          ⟨st.fetched ++ [candidate_url dl name], st.written⟩
                          (candidate_url dl name) hmemtr
                        rw [h] at this
                        exact this
                      · obtain ⟨n, hn, hcase⟩ := ih downloaded _ st1 h g hgrest
                        refine ⟨n, hn, ?_⟩
                        rcases hcase with hc | ⟨pfx2, hpfx2, hc⟩
                        · exact Or.inl hc
                        · refine Or.inr ⟨pfx2, hpfx2, ?_⟩
                          rcases hc with hc | ⟨f2, hf2, n2, hn2, hp2, hu2⟩
                          · exact Or.inl hc
                          · exact Or.inr ⟨f2, List.mem_cons_of_mem f hf2, n2, hn2, hp2, hu2⟩
                  | some data =>
                      rcases verify_checksum_over_cases env data f dl.checksum_algorithms with
                        hver | hver | hver
                      · cases hscan : scanPackages nm (env.parsePackages (env.decompress data)) with
                        | ok o =>
                            cases o with
                            | some sec =>
                                rw [find_cons_found env dl nm f rest downloaded st name pfx data
                                      sec hname hpfx hmem hfetch hver hscan] at h
                                exact absurd h (by simp)
                            | none =>
                                rw [find_cons_notfound env dl nm f rest downloaded st name pfx
                                      data hname hpfx hmem hfetch hver hscan] at h
                                have hurl : candidate_url dl name ∈ st1.fetched := by
                                  have hmemtr : candidate_url dl name ∈
                                      (⟨st.fetched ++ [candidate_url dl name],
                                        st.written⟩ : DLState).fetched := by
                                    simp
                                  have := find_fetched_mem env dl nm rest (downloaded ++ [pfx])
                                    ⟨st.fetched ++ [candidate_url dl name], st.written⟩
                                    (candidate_url dl name) hmemtr
                                  rw [h] at this
                                  exact this
                                rcases List.mem_cons.mp hg with hgf | hgrest
                                · subst hgf
                                  exact ⟨name, hname, Or.inl hurl⟩
                                · obtain ⟨n, hn, hcase⟩ := ih (downloaded ++ [pfx]) _ st1 h g hgrest
                                  refine ⟨n, hn, ?_⟩
                                  rcases hcase with hc | ⟨pfx2, hpfx2, hc⟩
                                  · exact Or.inl hc
                                  · refine Or.inr ⟨pfx2, hpfx2, ?_⟩
                                    rcases hc with hc | ⟨f2, hf2, n2, hn2, hp2, hu2⟩
                                    · rcases List.mem_append.mp hc with hc | hc
                                      · exact Or.inl hc
                                      · have hpe : pfx2 = pfx := by simpa using hc
                                        subst hpe
                                        exact Or.inr ⟨f, List.mem_cons_self f rest, name,
                                          hname, hpfx, hurl⟩
                                    · exact Or.inr ⟨f2, List.mem_cons_of_mem f hf2, n2, hn2,
                                        hp2, hu2⟩
                        | fatal e2 => exact absurd hscan (scanPackages_ne_fatal nm e2 _)
                        | exn e2 =>
                            rw [find_cons_scan_exn env dl nm f rest downloaded st name pfx data
                                  e2 hname hpfx hmem hfetch hver hscan] at h
                            exact absurd h (by simp)
                      · rw [find_cons_badsum env dl nm f rest downloaded st name pfx data
                              .checksumMismatch hname hpfx hmem hfetch hver] at h
                        exact absurd h (by simp)
                      · rw [find_cons_exnsum env dl nm f rest downloaded st name pfx data
                              .nameError hname hpfx hmem hfetch hver] at h
                        exact absurd h (by simp)

/-- Claim C4: a fetched index whose computed digest differs from the
recorded digest aborts the whole loop with the checksum-mismatch error — the
remaining candidates and the index contents never enter the result — and the
abort propagates to the `download()` result. -/
theorem claim_C4 :
    (∀ (env : Env) (dl : Downloader) (nm : String) (f : Paragraph) (rest : List Paragraph)
       (downloaded : List String) (st : DLState) (name pfx : String) (data : ByteSeq),
       pget f "name" = some name →
       packagesPfx name = some pfx →
       downloaded.contains pfx = false →
       env.fetch (candidate_url dl name) = some data →
       verify_checksum env dl data f = .fatal .checksumMismatch →
       find_package_in_package_files env dl nm (f :: rest) downloaded st =
         (.fatal .checksumMismatch, ⟨st.fetched ++ [candidate_url dl name], st.written⟩)) ∧
    (∀ (env : Env) (dl : Downloader) (nm dest : String) (content : ByteSeq)
       (sig : Option ByteSeq) (st1 : DLState) (files : List Paragraph) (st2 : DLState),
       nm ≠ "" →
       acquire_release env dl init_state = (.ok (content, sig), st1) →
       truthyStr dl.repository_key = none →
       parse_release_file env dl content = .ok files →
       find_package_in_package_files env dl nm files [] st1 =
         (.fatal .checksumMismatch, st2) →
       download env dl nm dest = (.fatal .checksumMismatch, st2)) := by
  constructor
  · intro env dl nm f rest downloaded st name pfx data hname hpfx hmem hfetch hver
    exact find_cons_badsum env dl nm f rest downloaded st name pfx data
      .checksumMismatch hname hpfx hmem hfetch hver
  · intro env dl nm dest content sig st1 files st2 hp hacq hk hparse hfind
    rw [download_nokey env dl nm dest content sig st1 hp hacq hk]
    exact locate_find_fatal env dl nm dest content st1 st2 files
      .checksumMismatch hparse hfind

/-- Fixture descriptor for the corrupt-index claim. -/
def dlC4 : Downloader :=
  ⟨"deb u d m", none, ["a"], false, "u", "d", ["m"],
   ["gz", "bz2", "xz"], ["SHA512", "SHA256"]⟩

/-- Fixture release row whose recorded digest will not match. -/
def rowC4 : Paragraph := [("name", "m/binary-a/Packages.gz"), ("sha512", "GOOD")]

/-- Fixture environment serving a corrupt index file. -/
def envC4 : Env where
  fetch := fun url =>
    if url = "u/dists/d/InRelease" then some [9]
    else if url = "u/dists/d/m/binary-a/Packages.gz" then some [1]
    else none
  hashHex := fun _ _ => "BAD"
  gpgStatus := fun _ _ _ => ""
  fetchKey := fun _ => []
  parseRelease := fun _ => ⟨some [rowC4], none⟩
  decompress := fun d => d
  parsePackages := fun _ => []

/-- Witness for C4: the fixture corrupt index aborts the loop and the whole
download with the checksum mismatch. -/
theorem claim_C4_witness :
    find_package_in_package_files envC4 dlC4 "p" [rowC4] [] ⟨["u/dists/d/InRelease"], []⟩ =
      (.fatal .checksumMismatch,
       ⟨["u/dists/d/InRelease", "u/dists/d/m/binary-a/Packages.gz"], []⟩) ∧
    download envC4 dlC4 "p" "/tmp" =
      (.fatal .checksumMismatch,
       ⟨["u/dists/d/InRelease", "u/dists/d/m/binary-a/Packages.gz"], []⟩) :=
  ⟨claim_C4.1 envC4 dlC4 "p" rowC4 [] [] ⟨["u/dists/d/InRelease"], []⟩
     "m/binary-a/Packages.gz" "m_binary-a_" [1]
     (by decide) (by decide) (by decide) (by decide) (by decide),
   claim_C4.2 envC4 dlC4 "p" "/tmp" [9] none ⟨["u/dists/d/InRelease"], []⟩ [rowC4]
     ⟨["u/dists/d/InRelease", "u/dists/d/m/binary-a/Packages.gz"], []⟩
     (by decide) (by decide) (by decide) (by decide) (by decide)⟩

/-- Claim C5: each decompressed index is scanned in document order and the
first paragraph whose `Package` field equals the requested name is returned
immediately (later candidates are not consulted); when the loop exhausts all
candidates without a hit, every candidate was attempted or skipped under the
compression-preference rule, and the `download()` call then reports the
package as not found. -/
theorem claim_C5 :
    (∀ (nm : String) (sec : Paragraph) (rest : List Paragraph),
       pget sec "Package" = some nm →
       scanPackages nm (sec :: rest) = .ok (some sec)) ∧
    (∀ (nm : String) (sec : Paragraph) (rest : List Paragraph) (v : String),
       pget sec "Package" = some v → v ≠ nm →
       scanPackages nm (sec :: rest) = scanPackages nm rest) ∧
    (∀ (env : Env) (dl : Downloader) (nm : String) (f : Paragraph) (rest : List Paragraph)
       (downloaded : List String) (st : DLState) (name pfx : String) (data : ByteSeq)
       (sec : Paragraph),
       pget f "name" = some name →
       packagesPfx name = some pfx →
       downloaded.contains pfx = false →
       env.fetch (candidate_url dl name) = some data →
       verify_checksum env dl data f = .ok () →
       scanPackages nm (env.parsePackages (env.decompress data)) = .ok (some sec) →
       find_package_in_package_files env dl nm (f :: rest) downloaded st =
         (.ok (some sec), ⟨st.fetched ++ [candidate_url dl name], st.written⟩)) ∧
    (∀ (env : Env) (dl : Downloader) (nm : String) (files : List Paragraph)
       (downloaded : List String) (st st1 : DLState),
       find_package_in_package_files env dl nm files downloaded st = (.ok none, st1) →
       ∀ f ∈ files, ∃ n, pget f "name" = some n ∧
         (candidate_url dl n ∈ st1.fetched ∨
          ∃ pfx, packagesPfx n = some pfx ∧
            (pfx ∈ downloaded ∨
             ∃ f2 ∈ files, ∃ n2, pget f2 "name" = some n2 ∧ packagesPfx n2 = some pfx ∧
               candidate_url dl n2 ∈ st1.fetched))) ∧
    (∀ (env : Env) (dl : Downloader) (nm dest : String) (content : ByteSeq)
       (sig : Option ByteSeq) (st1 : DLState) (files : List Paragraph) (st2 : DLState),
       nm ≠ "" →
       acquire_release env dl init_state = (.ok (content, sig), st1) →
       truthyStr dl.repository_key = none →
       parse_release_file env dl content = .ok files →
       find_package_in_package_files env dl nm files [] st1 = (.ok none, st2) →
       download env dl nm dest = (.fatal (.packageNotFound nm), st2)) := by
  refine ⟨?_, ?_, ?_, ?_, ?_⟩
  · intro nm sec rest hsec
    rw [scanPackages]
    simp [hsec]
  · intro nm sec rest v hsec hv
    rw [scanPackages]
    simp only [hsec, hv, if_false]
  · intro env dl nm f rest downloaded st name pfx data sec hname hpfx hmem hfetch hver hscan
    exact find_cons_found env dl nm f rest downloaded st name pfx data sec
      hname hpfx hmem hfetch hver hscan
  · intro env dl nm files downloaded st st1 h
    exact find_none_exhausts env dl nm files downloaded st st1 h
  · intro env dl nm dest content sig st1 files st2 hp hacq hk hparse hfind
    rw [download_nokey env dl nm dest content sig st1 hp hacq hk]
    exact locate_notfound env dl nm dest content st1 st2 files hparse hfind

/-- Fixture descriptor for the scan-order claim. -/
def dlC5 : Downloader :=
  ⟨"deb u d m", none, ["a"], false, "u", "d", ["m"],
   ["gz", "bz2", "xz"], ["SHA512", "SHA256"]⟩

/-- Fixture release row for the scan-order claim. -/
def rowC5 : Paragraph := [("name", "m/binary-a/Packages.gz"), ("sha512", "G1")]

/-- Fixture control paragraph of the requested package. -/
def paraC5p : Paragraph := [("Package", "p"), ("Filename", "p/p.deb"), ("SHA512", "G2")]

/-- Fixture control paragraph of another package that precedes it. -/
def paraC5q : Paragraph := [("Package", "q")]

/-- Fixture environment whose single index contains the package. -/
def envC5 : Env where
  fetch := fun url =>
    if url = "u/dists/d/InRelease" then some [9]
    else if url = "u/dists/d/m/binary-a/Packages.gz" then some [1]
    else if url = "u/p/p.deb" then some [2]
    else none
  hashHex := fun _ data => if data = [1] then "G1" else if data = [2] then "G2" else "BAD"
  gpgStatus := fun _ _ _ => ""
  fetchKey := fun _ => []
  parseRelease := fun _ => ⟨some [rowC5], none⟩
  decompress := fun d => d
  parsePackages := fun d => if d = [1] then [paraC5q, paraC5p] else []

/-- Fixture environment whose single index lacks the package. -/
def envC5b : Env where
  fetch := fun url =>
    if url = "u/dists/d/InRelease" then some [9]
    else if url = "u/dists/d/m/binary-a/Packages.gz" then some [1]
    else none
  hashHex := fun _ data => if data = [1] then "G1" else "BAD"
  gpgStatus := fun _ _ _ => ""
  fetchKey := fun _ => []
  parseRelease := fun _ => ⟨some [rowC5], none⟩
  decompress := fun d => d
  parsePackages := fun d => if d = [1] then [paraC5q] else []

/-- Witness for C5: the document-order scan skips the earlier paragraph and
returns the requested one; the loop returns it immediately; on the fixture
without the package the loop returns nothing after having attempted the only
candidate, and the download reports the package as not found. -/
theorem claim_C5_witness :
    scanPackages "p" [paraC5q, paraC5p] = scanPackages "p" [paraC5p] ∧
    scanPackages "p" [paraC5p] = .ok (some paraC5p) ∧
    find_package_in_package_files envC5 dlC5 "p" [rowC5] [] ⟨["u/dists/d/InRelease"], []⟩ =
      (.ok (some paraC5p),
       ⟨["u/dists/d/InRelease", "u/dists/d/m/binary-a/Packages.gz"], []⟩) ∧
    (∃ n, pget rowC5 "name" = some n ∧
       (candidate_url dlC5 n ∈
          (⟨["u/dists/d/InRelease", "u/dists/d/m/binary-a/Packages.gz"], []⟩ : DLState).fetched ∨
        ∃ pfx, packagesPfx n = some pfx ∧
          (pfx ∈ ([] : List String) ∨
           ∃ f2 ∈ [rowC5], ∃ n2, pget f2 "name" = some n2 ∧ packagesPfx n2 = some pfx ∧
             candidate_url dlC5 n2 ∈
               (⟨["u/dists/d/InRelease", "u/dists/d/m/binary-a/Packages.gz"],
                 []⟩ : DLState).fetched))) ∧
    download envC5b dlC5 "p" "/tmp" =
      (.fatal (.packageNotFound "p"),
       ⟨["u/dists/d/InRelease", "u/dists/d/m/binary-a/Packages.gz"], []⟩) :=
  ⟨claim_C5.2.1 "p" paraC5q [paraC5p] "q" (by decide) (by decide),
   claim_C5.1 "p" paraC5p [] (by decide),
   claim_C5.2.2.1 envC5 dlC5 "p" rowC5 [] [] ⟨["u/dists/d/InRelease"], []⟩
     "m/binary-a/Packages.gz" "m_binary-a_" [1] paraC5p
     (by decide) (by decide) (by decide) (by decide) (by decide) (by decide),
   claim_C5.2.2.2.1 envC5b dlC5 "p" [rowC5] [] ⟨["u/dists/d/InRelease"], []⟩
     ⟨["u/dists/d/InRelease", "u/dists/d/m/binary-a/Packages.gz"], []⟩
     (by decide) rowC5 (List.mem_cons_self rowC5 []),
   claim_C5.2.2.2.2 envC5b dlC5 "p" "/tmp" [9] none ⟨["u/dists/d/InRelease"], []⟩ [rowC5]
     ⟨["u/dists/d/InRelease", "u/dists/d/m/binary-a/Packages.gz"], []⟩
     (by decide) (by decide) (by decide) (by decide) (by decide)⟩

/-- Fixture descriptor for the compression-order claim. -/
def dlC3 : Downloader :=
  ⟨"deb u d m", none, ["a"], false, "u", "d", ["m"],
   ["gz", "bz2", "xz"], ["SHA512", "SHA256"]⟩

/-- Fixture release rows: the checksum section lists the `xz` variant before
the `gz` variant of the same component/arch prefix. -/
def rowC3xz : Paragraph := [("name", "m/binary-a/Packages.xz"), ("sha512", "D1")]

/-- The `gz` variant row of the same prefix. -/
def rowC3gz : Paragraph := [("name", "m/binary-a/Packages.gz"), ("sha512", "D2")]

/-- Fixture control paragraph served by the `xz` index. -/
def paraC3 : Paragraph := [("Package", "p"), ("Filename", "p/p.deb"), ("SHA512", "D3")]

/-- Fixture environment where both compressed variants are available and
valid, with the section listing `xz` first. -/
def envC3 : Env where
  fetch := fun url =>
    if url = "u/dists/d/InRelease" then some [9]
    else if url = "u/dists/d/m/binary-a/Packages.xz" then some [1]
    else if url = "u/dists/d/m/binary-a/Packages.gz" then some [2]
    else if url = "u/p/p.deb" then some [3]
    else none
  hashHex := fun _ data =>
    if data = [1] then "D1" else if data = [2] then "D2" else if data = [3] then "D3" else "BAD"
  gpgStatus := fun _ _ _ => ""
  fetchKey := fun _ => []
  parseRelease := fun _ => ⟨some [rowC3xz, rowC3gz], none⟩
  decompress := fun d => d
  parsePackages := fun d => if d = [1] then [paraC3] else []

/-- Counterexample for C3 as stated: with both the `gz` and the `xz` variant
of the same prefix present and fetchable, the download fetches the `xz`
candidate first — the section order of the release metadata, not the claimed
gz, bz2, xz order — and the `gz` variant is never fetched at all. -/
theorem claim_C3_counterexample :
    download envC3 dlC3 "p" "/tmp" =
      (.ok "/tmp/p.deb",
       ⟨["u/dists/d/InRelease", "u/dists/d/m/binary-a/Packages.xz", "u/p/p.deb"],
        [("/tmp/p.deb", [3])]⟩) ∧
    envC3.fetch "u/dists/d/m/binary-a/Packages.gz" = some [2] ∧
    ¬ "u/dists/d/m/binary-a/Packages.gz" ∈ (download envC3 dlC3 "p" "/tmp").2.fetched := by
  refine ⟨by decide, by decide, by decide⟩

/-- Claim C3 (amended): candidate index paths are exactly the
`<component>/binary-<arch>/Packages.<compression>` triples, with the
compression list fixed to gz, bz2, xz by the constructor; this list only
determines the candidate set — the candidates are tried in the order the
release metadata's checksum section lists them (release parsing preserves
section order) — and once one compression of a given component/arch prefix
has been successfully fetched and verified, every other candidate of that
same prefix is skipped without a fetch. -/
theorem claim_C3 :
    (∀ (dl : Downloader) (n : String),
       n ∈ packagesFilter dl ↔
         ∃ c ∈ dl.comps, ∃ a ∈ dl.architectures, ∃ z ∈ dl.compressions,
           n = c ++ "/binary-" ++ a ++ "/Packages." ++ z) ∧
    (∀ (repository repository_key : Option String) (architectures : Option (List String))
       (d : Downloader),
       packageDownloader_init repository repository_key architectures = .ok d →
       d.compressions = ["gz", "bz2", "xz"]) ∧
    (∀ (flt : List String) (sec : List Paragraph), (filterByName flt sec).Sublist sec) ∧
    (∀ (env : Env) (dl : Downloader) (nm : String) (f : Paragraph) (rest : List Paragraph)
       (downloaded : List String) (st : DLState) (name pfx : String),
       pget f "name" = some name →
       packagesPfx name = some pfx →
       downloaded.contains pfx = true →
       find_package_in_package_files env dl nm (f :: rest) downloaded st =
         find_package_in_package_files env dl nm rest downloaded st) ∧
    (∀ (env : Env) (dl : Downloader) (nm : String) (f : Paragraph) (rest : List Paragraph)
       (downloaded : List String) (st : DLState) (name pfx : String) (data : ByteSeq),
       pget f "name" = some name →
       packagesPfx name = some pfx →
       downloaded.contains pfx = false →
       env.fetch (candidate_url dl name) = some data →
       verify_checksum env dl data f = .ok () →
       scanPackages nm (env.parsePackages (env.decompress data)) = .ok none →
       find_package_in_package_files env dl nm (f :: rest) downloaded st =
         find_package_in_package_files env dl nm rest (downloaded ++ [pfx])
           ⟨st.fetched ++ [candidate_url dl name], st.written⟩) := by
  refine ⟨?_, ?_, ?_, ?_, ?_⟩
  · intro dl n
    simp only [packagesFilter, List.mem_flatMap, List.mem_map]
    constructor
    · rintro ⟨c, hc, a, ha, z, hz, hn⟩
      exact ⟨c, hc, a, ha, z, hz, hn.symm⟩
    · rintro ⟨c, hc, a, ha, z, hz, hn⟩
      exact ⟨c, hc, a, ha, z, hz, hn.symm⟩
  · intro repository repository_key architectures d hd
    rw [packageDownloader_init] at hd
    by_cases h1 : truthyStr repository = none
    · simp [h1] at hd
    · by_cases h2 : architectures = none ∨ architectures = some []
      · simp [h1, h2] at hd
      · simp only [h1, h2, if_false] at hd
        injection hd with hd
        rw [← hd]
  · intro flt sec
    exact List.filter_sublist sec
  · intro env dl nm f rest downloaded st name pfx hname hpfx hmem
    exact find_cons_skip env dl nm f rest downloaded st name pfx hname hpfx hmem
  · intro env dl nm f rest downloaded st name pfx data hname hpfx hmem hfetch hver hscan
    exact find_cons_notfound env dl nm f rest downloaded st name pfx data
      hname hpfx hmem hfetch hver hscan

/-- Witness for C3: the candidate set of the fixture repository contains
exactly the formed triples; a constructed downloader carries the gz, bz2, xz
compression list; filtering preserves section order; and the skip and
record steps at concrete inputs. -/
theorem claim_C3_witness :
    "m/binary-a/Packages.xz" ∈ packagesFilter dlC3 ∧
    (⟨"deb http://h bb m", none, ["amd64"], false, "http://h", "bb", ["m"],
      ["gz", "bz2", "xz"], ["SHA512", "SHA256"]⟩ : Downloader).compressions =
      ["gz", "bz2", "xz"] ∧
    (filterByName (packagesFilter dlC3) [rowC3xz, rowC3gz]).Sublist [rowC3xz, rowC3gz] ∧
    find_package_in_package_files envC3 dlC3 "p" [rowC3gz] ["m_binary-a_"] init_state =
      find_package_in_package_files envC3 dlC3 "p" [] ["m_binary-a_"] init_state ∧
    find_package_in_package_files envC3 dlC3 "p" [rowC3gz] [] init_state =
      find_package_in_package_files envC3 dlC3 "p" [] (["m_binary-a_"])
        ⟨["u/dists/d/m/binary-a/Packages.gz"], []⟩ :=
  ⟨(claim_C3.1 dlC3 "m/binary-a/Packages.xz").mpr
     ⟨"m", by decide, "a", by decide, "xz", by decide, by decide⟩,
   claim_C3.2.1 (some "deb http://h bb m") none (some ["amd64"])
     ⟨"deb http://h bb m", none, ["amd64"], false, "http://h", "bb", ["m"],
      ["gz", "bz2", "xz"], ["SHA512", "SHA256"]⟩ (by decide),
   claim_C3.2.2.1 (packagesFilter dlC3) [rowC3xz, rowC3gz],
   claim_C3.2.2.2.1 envC3 dlC3 "p" rowC3gz [] ["m_binary-a_"] init_state
     "m/binary-a/Packages.gz" "m_binary-a_" (by decide) (by decide) (by decide),
   claim_C3.2.2.2.2 envC3 dlC3 "p" rowC3gz [] [] init_state
     "m/binary-a/Packages.gz" "m_binary-a_" [2]
     (by decide) (by decide) (by decide) (by decide) (by decide) (by decide)⟩

/-- A character list ending in `deb` is its own longest `deb`-suffixed
prefix. -/
lemma debGroup_append_deb : ∀ b0 : List Char,
    debGroup (b0 ++ ['d', 'e', 'b']) = some (b0 ++ ['d', 'e', 'b']) := by
  intro b0
  induction b0 with
  | nil => decide
  | cons c rest ih => simp [debGroup, ih]

/-- Without a slash the line-165 regex cannot match at all. -/
lemma reMatchDeb1_no_slash : ∀ l : List Char, ¬ '/' ∈ l → reMatchDeb1 l = none := by
  intro l
  induction l with
  | nil => intro _; rfl
  | cons c rest ih =>
      intro h
      have hc : ¬ c = '/' := fun hc => h (hc ▸ List.mem_cons_self c rest)
      have hr : ¬ '/' ∈ rest := fun hr => h (List.mem_cons_of_mem c hr)
      simp [reMatchDeb1, ih hr, hc]

/-- The greedy leading `.*` of the line-165 regex selects the last slash:
when the tail after the last slash is its own `deb`-group, that tail is the
extracted group. -/
lemma reMatchDeb1_last : ∀ (p b : List Char), ¬ '/' ∈ b → debGroup b = some b →
    reMatchDeb1 (p ++ '/' :: b) = some b := by
  intro p
  induction p with
  | nil =>
      intro b hs hd
      simp [reMatchDeb1, reMatchDeb1_no_slash b hs, hd]
  | cons c rest ih =>
      intro b hs hd
      simp [reMatchDeb1, ih b hs hd]

/-- Taking while a predicate holds of the entire first part stops exactly at
the first failing element. -/
lemma takeWhile_all_append (pr : Char → Bool) : ∀ (l1 : List Char) (c : Char) (l2 : List Char),
    (∀ x ∈ l1, pr x = true) → pr c = false →
    (l1 ++ c :: l2).takeWhile pr = l1 := by
  intro l1
  induction l1 with
  | nil => intro c l2 _ hc; simp [List.takeWhile_cons, hc]
  | cons x xs ih =>
      intro c l2 h1 hc
      have hx : pr x = true := h1 x (List.mem_cons_self x xs)
      simp [List.takeWhile_cons, hx,
        ih c l2 (fun y hy => h1 y (List.mem_cons_of_mem x hy)) hc]

/-- Rebuilding a string from its characters is the identity. -/
lemma string_mk_data (s : String) : String.mk s.data = s := by cases s; rfl

/-- For a `Filename` whose last path component is slash-free and ends in
`deb`, the code's regex extraction and the spec's basename agree. -/
lemma reMatchDeb_eq_basename (p b : String) (hs : ¬ '/' ∈ b.data) (b0 : List Char)
    (hb : b.data = b0 ++ ['d', 'e', 'b']) :
    reMatchDeb (p ++ "/" ++ b) = some b ∧ spec_basename (p ++ "/" ++ b) = b := by
  have hdata : (p ++ "/" ++ b).data = p.data ++ '/' :: b.data := by
    simp [String.data_append]
  have hgroup : debGroup b.data = some b.data := by
    rw [hb]; exact debGroup_append_deb b0
  constructor
  · rw [reMatchDeb, hdata, reMatchDeb1_last p.data b.data hs hgroup]
    simp [string_mk_data]
  · rw [spec_basename, hdata]
    have hrev : (p.data ++ '/' :: b.data).reverse =
        b.data.reverse ++ '/' :: p.data.reverse := by
      simp
    rw [hrev, takeWhile_all_append _ b.data.reverse '/' p.data.reverse
          (fun x hx => by
            have hxb : x ∈ b.data := List.mem_reverse.mp hx
            have hxs : ¬ x = '/' := fun hxeq => hs (hxeq ▸ hxb)
            simp [hxs])
          (by simp)]
    simp [string_mk_data]

/-- Fixture descriptor for the payload-naming claim. -/
def dlC8 : Downloader :=
  ⟨"deb u d m", none, ["a"], false, "u", "d", ["m"],
   ["gz", "bz2", "xz"], ["SHA512", "SHA256"]⟩

/-- Fixture control entry whose `Filename` basename does not end in `deb`. -/
def pkgC8 : Paragraph := [("Package", "p"), ("Filename", "p/a.deb.x"), ("SHA512", "D4")]

/-- Fixture environment serving that payload with a matching digest. -/
def envC8 : Env where
  fetch := fun url => if url = "u/p/a.deb.x" then some [4] else none
  hashHex := fun _ data => if data = [4] then "D4" else "BAD"
  gpgStatus := fun _ _ _ => ""
  fetchKey := fun _ => []
  parseRelease := fun _ => ⟨none, none⟩
  decompress := fun d => d
  parsePackages := fun _ => []

/-- Counterexample for C8 as stated: for the control entry with `Filename`
`p/a.deb.x` the payload download succeeds but is written to `/tmp/a.deb` —
the regex group, not `<dest>/<basename(Filename)>`, which would be
`/tmp/a.deb.x`. -/
theorem claim_C8_counterexample :
    download_package envC8 dlC8 pkgC8 "/tmp" init_state =
      (.ok "/tmp/a.deb", ⟨["u/p/a.deb.x"], [("/tmp/a.deb", [4])]⟩) ∧
    spec_basename "p/a.deb.x" = "a.deb.x" ∧
    ¬ os_path_join "/tmp" (spec_basename "p/a.deb.x") = "/tmp/a.deb" := by
  refine ⟨by decide, by decide, by decide⟩

/-- Claim C8 (amended): for every successful payload download whose
`Filename` splits as `<dir>/<base>` with a slash-free base ending in `deb`,
the verified payload bytes are written to `<dest>/<basename(Filename)>` and
that path is returned; when the base does not end in `deb`, the line-165
regex extraction differs from the basename. -/
theorem claim_C8 (env : Env) (dl : Downloader) (package : Paragraph) (dest : String)
    (st : DLState) (p b : String) (data : ByteSeq) (b0 : List Char)
    (hfn : pget package "Filename" = some (p ++ "/" ++ b))
    (hs : ¬ '/' ∈ b.data)
    (hb : b.data = b0 ++ ['d', 'e', 'b'])
    (hfetch : env.fetch (dl.uri ++ "/" ++ (p ++ "/" ++ b)) = some data)
    (hver : verify_checksum env dl data package = .ok ()) :
    spec_basename (p ++ "/" ++ b) = b ∧
    download_package env dl package dest st =
      (.ok (os_path_join dest (spec_basename (p ++ "/" ++ b))),
       ⟨st.fetched ++ [dl.uri ++ "/" ++ (p ++ "/" ++ b)],
        st.written ++ [(os_path_join dest (spec_basename (p ++ "/" ++ b)), data)]⟩) := by
  obtain ⟨hre, hbase⟩ := reMatchDeb_eq_basename p b hs b0 hb
  refine ⟨hbase, ?_⟩
  rw [hbase]
  exact dlpkg_ok env dl package dest st (p ++ "/" ++ b) b data hfn hre hfetch hver

/-- Fixture control entry with a conventional `.deb` basename. -/
def pkgC8w : Paragraph := [("Package", "q"), ("Filename", "p/q.deb"), ("SHA512", "D5")]

/-- Fixture environment serving the conventional payload. -/
def envC8w : Env where
  fetch := fun url => if url = "u/p/q.deb" then some [5] else none
  hashHex := fun _ data => if data = [5] then "D5" else "BAD"
  gpgStatus := fun _ _ _ => ""
  fetchKey := fun _ => []
  parseRelease := fun _ => ⟨none, none⟩
  decompress := fun d => d
  parsePackages := fun _ => []

/-- Witness for C8: the conventional fixture is written to the destination
under the basename of its `Filename` and that path is returned. -/
theorem claim_C8_witness :
    spec_basename ("p" ++ "/" ++ "q.deb") = "q.deb" ∧
    download_package envC8w dlC8 pkgC8w "/tmp" init_state =
      (.ok (os_path_join "/tmp" (spec_basename ("p" ++ "/" ++ "q.deb"))),
       ⟨[dlC8.uri ++ "/" ++ ("p" ++ "/" ++ "q.deb")],
        [(os_path_join "/tmp" (spec_basename ("p" ++ "/" ++ "q.deb")), [5])]⟩) :=
  claim_C8 envC8w dlC8 pkgC8w "/tmp" init_state "p" "q.deb" [5] ['q', '.']
    (by decide) (by decide) (by decide) (by decide) (by decide)

end Edi
